import Mathlib

/-!
Verification of the frametv synchronization core: the sync planner and executor
(`tv_sync_smart.py`), the reconciler (`tv_refresh.py`), the usage counter
(`source_image_repository.py`) and the gallery-image catalog mutations
(`routers/gallery_images.py`), shallowly embedded as pure Lean functions.
-/

namespace FrameTV

/-! ## Data model -/

/-- A gallery image row, as returned by `GET /gallery-images/{id}`. -/
structure GImg where
  id : Nat
  filename : String
  filepath : String
deriving Repr, DecidableEq

/-- A `tv_content_mappings` row (`models/tv_content_mapping.py`). -/
structure Mapping where
  id : Nat
  gallery_image_id : Option Nat
  tv_content_id : String
  sync_status : String
  category_id : Option String := none
  width : Option Nat := none
  height : Option Nat := none
  matte_id : Option String := none
  portrait_matte_id : Option String := none
  image_date : Option String := none
  content_type : Option String := none
deriving Repr, DecidableEq

/-- A per-item failure record `{filename, error}`. -/
structure SyncFailure where
  filename : String
  error : String
deriving Repr, DecidableEq

/-- A `source_images` row; only the fields the usage counter touches. -/
structure SourceImg where
  id : Nat
  usage_count : Int
deriving Repr, DecidableEq

/-- An `image_slots` row; only the fields the usage counter touches. -/
structure Slot where
  gallery_image_id : Nat
  slot_number : Nat
  source_image_id : Option Nat
deriving Repr, DecidableEq

/-- A slot in a create/update request body (`ImageSlotCreate`). -/
structure SlotReq where
  slot_number : Nat
  source_image_id : Option Nat
deriving Repr, DecidableEq

/-- The catalog state the usage counter and gallery-image mutations act on. -/
structure Catalog where
  sources : List SourceImg
  slots : List Slot
deriving Repr, DecidableEq

/-! ## Usage counter (`repositories/source_image_repository.py`) -/

/-- `Repository.get` on source images: does a row with this id exist. -/
def sourceExists (srcs : List SourceImg) (sid : Nat) : Bool :=
  srcs.any (fun s => s.id == sid)

/-- `increment_usage`: `usage_count += 1` on the row with the given id;
returns the updated table and whether the row was found. -/
def increment_usage (srcs : List SourceImg) (sid : Nat) : List SourceImg × Bool :=
  if sourceExists srcs sid then
    (srcs.map (fun s =>
      if s.id == sid then { s with usage_count := s.usage_count + 1 } else s), true)
  else (srcs, false)

/-- `decrement_usage`: `usage_count -= 1`, clamping at 0 when the current
count is already `≤ 0`; reports success whenever the row exists. -/
def decrement_usage (srcs : List SourceImg) (sid : Nat) : List SourceImg × Bool :=
  if sourceExists srcs sid then
    (srcs.map (fun s =>
      if s.id == sid then
        { s with usage_count := if s.usage_count ≤ 0 then 0 else s.usage_count - 1 }
      else s), true)
  else (srcs, false)

/-- `batch_increment_usage`: fold `increment_usage` over the ids, counting successes. -/
def batch_increment_usage (srcs : List SourceImg) (sids : List Nat) :
    List SourceImg × Nat :=
  sids.foldl (fun acc sid =>
    let r := increment_usage acc.1 sid
    (r.1, acc.2 + (if r.2 then 1 else 0))) (srcs, 0)

/-- `batch_decrement_usage`: fold `decrement_usage` over the ids, counting successes. -/
def batch_decrement_usage (srcs : List SourceImg) (sids : List Nat) :
    List SourceImg × Nat :=
  sids.foldl (fun acc sid =>
    let r := decrement_usage acc.1 sid
    (r.1, acc.2 + (if r.2 then 1 else 0))) (srcs, 0)

/-- A single increment or decrement call. -/
inductive UsageOp where
  | inc (sid : Nat)
  | dec (sid : Nat)
deriving Repr, DecidableEq

/-- Apply one usage-counter call to the source-image table. -/
def applyUsageOp (srcs : List SourceImg) (op : UsageOp) : List SourceImg :=
  match op with
  | .inc sid => (increment_usage srcs sid).1
  | .dec sid => (decrement_usage srcs sid).1

/-- Every usage count in the table is non-negative. -/
def allNonneg (srcs : List SourceImg) : Prop :=
  ∀ s ∈ srcs, 0 ≤ s.usage_count

instance (srcs : List SourceImg) : Decidable (allNonneg srcs) :=
  List.decidableBAll _ srcs

/-! ### Non-negativity lemmas -/

lemma increment_usage_nonneg {srcs : List SourceImg} (h : allNonneg srcs) (sid : Nat) :
    allNonneg (increment_usage srcs sid).1 := by
  unfold increment_usage
  split
  · intro s hs
    simp only [List.mem_map] at hs
    obtain ⟨t, ht, rfl⟩ := hs
    by_cases hid : t.id == sid
    · simp only [hid, if_true]
      have := h t ht
      omega
    · simp only [hid, if_false, Bool.false_eq_true]
      exact h t ht
  · exact h

lemma decrement_usage_nonneg {srcs : List SourceImg} (h : allNonneg srcs) (sid : Nat) :
    allNonneg (decrement_usage srcs sid).1 := by
  unfold decrement_usage
  split
  · intro s hs
    simp only [List.mem_map] at hs
    obtain ⟨t, ht, rfl⟩ := hs
    by_cases hid : t.id == sid
    · simp only [hid, if_true]
      by_cases hle : t.usage_count ≤ 0
      · simp [hle]
      · simp only [hle, if_false]
        have := h t ht
        omega
    · simp only [hid, if_false, Bool.false_eq_true]
      exact h t ht
  · exact h

lemma applyUsageOp_nonneg {srcs : List SourceImg} (h : allNonneg srcs) (op : UsageOp) :
    allNonneg (applyUsageOp srcs op) := by
  cases op with
  | inc sid => exact increment_usage_nonneg h sid
  | dec sid => exact decrement_usage_nonneg h sid

lemma foldl_usageOps_nonneg {srcs : List SourceImg} (h : allNonneg srcs)
    (ops : List UsageOp) : allNonneg (ops.foldl applyUsageOp srcs) := by
  induction ops generalizing srcs with
  | nil => exact h
  | cons op rest ih => exact ih (applyUsageOp_nonneg h op)

/-! ### Batch-operation characterizations -/

/-- Number of image slots referencing a given source image id. -/
def slotRefCount (slots : List Slot) (sid : Nat) : Nat :=
  (slots.filter (fun sl => sl.source_image_id == some sid)).length

lemma batch_increment_fst_aux (sids : List Nat) (srcs : List SourceImg) (n : Nat) :
    (sids.foldl (fun acc sid =>
      let r := increment_usage acc.1 sid
      (r.1, acc.2 + (if r.2 then 1 else 0))) (srcs, n)).1 =
      srcs.map (fun s =>
        { s with usage_count := s.usage_count + (sids.count s.id : Int) }) := by
  induction sids generalizing srcs n with
  | nil =>
    simp only [List.foldl_nil, List.count_nil, Nat.cast_zero, add_zero]
    exact (List.map_id srcs).symm
  | cons sid rest ih =>
    simp only [List.foldl_cons]
    rw [ih]
    unfold increment_usage
    by_cases hex : sourceExists srcs sid
    · simp only [hex, if_true, List.map_map]
      apply List.map_congr_left
      intro s _
      simp only [Function.comp_apply]
      by_cases hid : s.id = sid
      · simp only [hid, beq_self_eq_true, if_true, List.count_cons, beq_self_eq_true,
          if_true, Nat.cast_add, Nat.cast_one]
        congr 1
        ring
      · have hb : (s.id == sid) = false := by simp [hid]
        have hb2 : (sid == s.id) = false := by simp [Ne.symm hid]
        simp only [hb, Bool.false_eq_true, if_false, List.count_cons, hb2, if_false,
          add_zero]
    · simp only [hex, Bool.false_eq_true, if_false]
      apply List.map_congr_left
      intro s hs
      have hne : s.id ≠ sid := by
        intro hc
        apply hex
        unfold sourceExists
        simp only [List.any_eq_true]
        exact ⟨s, hs, by simp [hc]⟩
      have hb2 : (sid == s.id) = false := by simp [Ne.symm hne]
      simp only [List.count_cons, hb2, Bool.false_eq_true, if_false, add_zero]

lemma batch_increment_usage_fst (srcs : List SourceImg) (sids : List Nat) :
    (batch_increment_usage srcs sids).1 =
      srcs.map (fun s =>
        { s with usage_count := s.usage_count + (sids.count s.id : Int) }) :=
  batch_increment_fst_aux sids srcs 0

lemma batch_decrement_fst_aux (sids : List Nat) (srcs : List SourceImg) (n : Nat)
    (h : ∀ s ∈ srcs, (sids.count s.id : Int) ≤ s.usage_count) :
    (sids.foldl (fun acc sid =>
      let r := decrement_usage acc.1 sid
      (r.1, acc.2 + (if r.2 then 1 else 0))) (srcs, n)).1 =
      srcs.map (fun s =>
        { s with usage_count := s.usage_count - (sids.count s.id : Int) }) := by
  induction sids generalizing srcs n with
  | nil =>
    simp only [List.foldl_nil, List.count_nil, Nat.cast_zero, sub_zero]
    exact (List.map_id srcs).symm
  | cons sid rest ih =>
    simp only [List.foldl_cons]
    have hrest : ∀ t ∈ (decrement_usage srcs sid).1,
        ((rest.count t.id : Int)) ≤ t.usage_count := by
      unfold decrement_usage
      by_cases hex : sourceExists srcs sid
      · simp only [hex, if_true]
        intro t ht
        simp only [List.mem_map] at ht
        obtain ⟨s, hs, rfl⟩ := ht
        have hc := h s hs
        simp only [List.count_cons] at hc
        by_cases hid : s.id = sid
        · have hb2 : (sid == s.id) = true := by simp [hid]
          simp only [hb2, if_true] at hc
          have hpos : ¬ s.usage_count ≤ 0 := by push_cast at hc; omega
          have hb : (s.id == sid) = true := by simp [hid]
          simp only [hb, if_true, hpos, if_false]
          push_cast at hc ⊢
          omega
        · have hb : (s.id == sid) = false := by simp [hid]
          have hb2 : (sid == s.id) = false := by simp [Ne.symm hid]
          simp only [hb2, Bool.false_eq_true, if_false, add_zero] at hc
          simp only [hb, Bool.false_eq_true, if_false]
          exact hc
      · simp only [hex, Bool.false_eq_true, if_false]
        intro t ht
        have hc := h t ht
        simp only [List.count_cons] at hc
        by_cases hb2 : (sid == t.id) = true
        · exfalso
          apply hex
          unfold sourceExists
          simp only [List.any_eq_true]
          simp only [beq_iff_eq] at hb2
          exact ⟨t, ht, by simp [hb2]⟩
        · simp only [Bool.not_eq_true] at hb2
          simp only [hb2, Bool.false_eq_true, if_false, add_zero] at hc
          exact hc
    rw [ih _ _ hrest]
    unfold decrement_usage
    by_cases hex : sourceExists srcs sid
    · simp only [hex, if_true, List.map_map]
      apply List.map_congr_left
      intro s hs
      simp only [Function.comp_apply]
      by_cases hid : s.id = sid
      · have hc : ((sid :: rest).count s.id : Int) ≤ s.usage_count := h s hs
        have hcc : (sid :: rest).count s.id = rest.count s.id + 1 := by
          simp [List.count_cons, hid]
        rw [hcc] at hc
        have hpos : ¬ s.usage_count ≤ 0 := by push_cast at hc; omega
        have hb : (s.id == sid) = true := by simp [hid]
        simp only [hb, if_true, hpos, if_false]
        rw [hcc]
        congr 1
        push_cast
        ring
      · have hb : (s.id == sid) = false := by simp [hid]
        have hb2 : (sid == s.id) = false := by simp [Ne.symm hid]
        simp only [hb, Bool.false_eq_true, if_false, List.count_cons, hb2,
          if_false, add_zero]
    · simp only [hex, Bool.false_eq_true, if_false]
      apply List.map_congr_left
      intro s hs
      have hne : s.id ≠ sid := by
        intro hc
        apply hex
        unfold sourceExists
        simp only [List.any_eq_true]
        exact ⟨s, hs, by simp [hc]⟩
      have hb2 : (sid == s.id) = false := by simp [Ne.symm hne]
      simp only [List.count_cons, hb2, Bool.false_eq_true, if_false, add_zero]

lemma batch_decrement_usage_fst (srcs : List SourceImg) (sids : List Nat)
    (h : ∀ s ∈ srcs, (sids.count s.id : Int) ≤ s.usage_count) :
    (batch_decrement_usage srcs sids).1 =
      srcs.map (fun s =>
        { s with usage_count := s.usage_count - (sids.count s.id : Int) }) :=
  batch_decrement_fst_aux sids srcs 0 h

/-! ## Gallery-image catalog mutations (`routers/gallery_images.py`) -/

/-- The Python truthiness test `if slot.source_image_id:` on an optional id:
keeps an id that is present and non-zero. -/
def truthySourceId (o : Option Nat) : Option Nat :=
  match o with
  | some sid => if sid == 0 then none else some sid
  | none => none

/-- The source ids a create/update request increments: one per request slot
whose (truthy) source id resolves to an existing source image. -/
def requestIncIds (srcs : List SourceImg) (reqs : List SlotReq) : List Nat :=
  reqs.filterMap (fun r =>
    match truthySourceId r.source_image_id with
    | some sid => if sourceExists srcs sid then some sid else none
    | none => none)

/-- `create_gallery_image`: append the new slots, then batch-increment the
resolved referenced source ids (one per slot, duplicates included). -/
def create_gallery_image (c : Catalog) (gid : Nat) (reqs : List SlotReq) : Catalog :=
  let newSlots := reqs.map (fun r => Slot.mk gid r.slot_number r.source_image_id)
  { sources := (batch_increment_usage c.sources (requestIncIds c.sources reqs)).1,
    slots := c.slots ++ newSlots }

/-- `update_gallery_image`: replace the gallery image's slots wholesale, then
adjust usage counts by the set difference of old and new referenced ids
(`old_source_ids - new_source_ids` decremented, the converse incremented). -/
def update_gallery_image (c : Catalog) (gid : Nat) (reqs : List SlotReq) : Catalog :=
  let old_slots := c.slots.filter (fun sl => sl.gallery_image_id == gid)
  let old_source_ids :=
    (old_slots.filterMap (fun sl => truthySourceId sl.source_image_id)).dedup
  let new_source_ids := (requestIncIds c.sources reqs).dedup
  let newSlots := reqs.map (fun r => Slot.mk gid r.slot_number r.source_image_id)
  let dec_ids := old_source_ids.filter (fun sid => !(new_source_ids.contains sid))
  let inc_ids := new_source_ids.filter (fun sid => !(old_source_ids.contains sid))
  let s1 := (batch_decrement_usage c.sources dec_ids).1
  { sources := (batch_increment_usage s1 inc_ids).1,
    slots := c.slots.filter (fun sl => !(sl.gallery_image_id == gid)) ++ newSlots }

/-- `delete_gallery_image`: drop the gallery image's slots and batch-decrement
the referenced source ids (one per slot, duplicates included). -/
def delete_gallery_image (c : Catalog) (gid : Nat) : Catalog :=
  let old_slots := c.slots.filter (fun sl => sl.gallery_image_id == gid)
  let sids := old_slots.filterMap (fun sl => truthySourceId sl.source_image_id)
  { sources := (batch_decrement_usage c.sources sids).1,
    slots := c.slots.filter (fun sl => !(sl.gallery_image_id == gid)) }

/-- The §3 invariant: each source image's usage count equals the number of
image slots that reference it. -/
def usageInvariant (c : Catalog) : Prop :=
  ∀ s ∈ c.sources, s.usage_count = (slotRefCount c.slots s.id : Int)

instance (c : Catalog) : Decidable (usageInvariant c) :=
  List.decidableBAll _ c.sources

/-! ### Counting helper lemmas -/

lemma count_filterMap_eq_length_filter {α : Type} (f : α → Option Nat)
    (l : List α) (b : Nat) :
    (l.filterMap f).count b = (l.filter (fun a => f a == some b)).length := by
  induction l with
  | nil => rfl
  | cons a rest ih =>
    cases hf : f a with
    | none => simp [List.filterMap_cons, hf, List.filter_cons, ih]
    | some c =>
      by_cases hc : c = b
      · subst hc
        simp [List.filterMap_cons, hf, List.filter_cons, List.count_cons, ih]
      · simp [List.filterMap_cons, hf, List.filter_cons, List.count_cons, hc, ih]

lemma truthy_eq_some {o : Option Nat} {sid : Nat} (h0 : sid ≠ 0) :
    (truthySourceId o == some sid) = (o == some sid) := by
  cases o with
  | none => rfl
  | some t =>
    by_cases ht : t = 0
    · subst ht
      simp [truthySourceId, Ne.symm h0]
    · simp [truthySourceId, ht]

lemma count_truthy_filterMap (slots : List Slot) (sid : Nat) (h0 : sid ≠ 0) :
    ((slots.filterMap (fun sl => truthySourceId sl.source_image_id)).count sid) =
      slotRefCount slots sid := by
  rw [count_filterMap_eq_length_filter]
  unfold slotRefCount
  congr 1
  apply List.filter_congr
  intro sl _
  exact truthy_eq_some h0

lemma count_source_filterMap (slots : List Slot) (sid : Nat) :
    ((slots.filterMap (fun sl => sl.source_image_id)).count sid) =
      slotRefCount slots sid := by
  rw [count_filterMap_eq_length_filter]
  rfl

lemma slotRefCount_append (l₁ l₂ : List Slot) (sid : Nat) :
    slotRefCount (l₁ ++ l₂) sid = slotRefCount l₁ sid + slotRefCount l₂ sid := by
  unfold slotRefCount
  rw [List.filter_append, List.length_append]

lemma slotRefCount_filter_split (p : Slot → Bool) (slots : List Slot) (sid : Nat) :
    slotRefCount (slots.filter p) sid +
      slotRefCount (slots.filter (fun sl => !(p sl))) sid =
      slotRefCount slots sid := by
  induction slots with
  | nil => rfl
  | cons sl rest ih =>
    by_cases hp : p sl <;>
      by_cases hq : (sl.source_image_id == some sid) = true <;>
        simp only [slotRefCount, List.filter_cons, hp, hq, Bool.not_true,
          Bool.not_false, if_true, if_false, Bool.false_eq_true, List.length_cons] at * <;>
        omega

lemma slotRefCount_map_req (gid : Nat) (reqs : List SlotReq) (sid : Nat) :
    slotRefCount (reqs.map (fun r => Slot.mk gid r.slot_number r.source_image_id)) sid =
      (reqs.filter (fun r => r.source_image_id == some sid)).length := by
  unfold slotRefCount
  rw [List.filter_map]
  simp [Function.comp_def]

lemma count_requestIncIds (srcs : List SourceImg) (reqs : List SlotReq) (sid : Nat)
    (h0 : sid ≠ 0) (hex : sourceExists srcs sid = true) :
    (requestIncIds srcs reqs).count sid =
      (reqs.filter (fun r => r.source_image_id == some sid)).length := by
  unfold requestIncIds
  rw [count_filterMap_eq_length_filter]
  congr 1
  apply List.filter_congr
  intro r _
  cases hr : r.source_image_id with
  | none => simp [truthySourceId, hr]
  | some t =>
    by_cases ht : t = 0
    · subst ht
      simp [truthySourceId, hr, Ne.symm h0]
    · have hb : (t == 0) = false := by simp [ht]
      by_cases hts : t = sid
      · subst hts
        simp [truthySourceId, hr, hb, hex]
      · by_cases hext : sourceExists srcs t <;>
          simp [truthySourceId, hr, hb, hext, hts]

/-! ### Invariant preservation -/

lemma sourceExists_of_mem {c : List SourceImg} {s : SourceImg} (hs : s ∈ c) :
    sourceExists c s.id = true := by
  unfold sourceExists
  simp only [List.any_eq_true]
  exact ⟨s, hs, by simp⟩

lemma create_preserves_invariant (c : Catalog) (hinv : usageInvariant c)
    (hpos : ∀ s ∈ c.sources, s.id ≠ 0) (gid : Nat) (reqs : List SlotReq) :
    usageInvariant (create_gallery_image c gid reqs) := by
  intro s' hs'
  simp only [create_gallery_image] at hs' ⊢
  rw [batch_increment_usage_fst] at hs'
  obtain ⟨s, hs, rfl⟩ := List.mem_map.mp hs'
  show s.usage_count + ((requestIncIds c.sources reqs).count s.id : Int) = _
  rw [slotRefCount_append, slotRefCount_map_req,
    count_requestIncIds c.sources reqs s.id (hpos s hs) (sourceExists_of_mem hs),
    hinv s hs]
  push_cast
  ring_nf

lemma delete_preserves_invariant (c : Catalog) (hinv : usageInvariant c)
    (hpos : ∀ s ∈ c.sources, s.id ≠ 0) (gid : Nat) :
    usageInvariant (delete_gallery_image c gid) := by
  intro s' hs'
  simp only [delete_gallery_image] at hs' ⊢
  have hle : ∀ s ∈ c.sources,
      ((((c.slots.filter (fun sl => sl.gallery_image_id == gid)).filterMap
        (fun sl => truthySourceId sl.source_image_id)).count s.id : Int)) ≤
        s.usage_count := by
    intro s hs
    rw [count_truthy_filterMap _ _ (hpos s hs), hinv s hs]
    have hsplit := slotRefCount_filter_split
      (fun sl => sl.gallery_image_id == gid) c.slots s.id
    omega
  rw [batch_decrement_usage_fst _ _ hle] at hs'
  obtain ⟨s, hs, rfl⟩ := List.mem_map.mp hs'
  show s.usage_count -
      (((c.slots.filter (fun sl => sl.gallery_image_id == gid)).filterMap
        (fun sl => truthySourceId sl.source_image_id)).count s.id : Int) = _
  rw [count_truthy_filterMap _ _ (hpos s hs), hinv s hs]
  have hsplit := slotRefCount_filter_split
    (fun sl => sl.gallery_image_id == gid) c.slots s.id
  push_cast
  omega

lemma update_preserves_invariant (c : Catalog) (hinv : usageInvariant c)
    (hpos : ∀ s ∈ c.sources, s.id ≠ 0) (gid : Nat) (reqs : List SlotReq)
    (hOld : ((c.slots.filter (fun sl => sl.gallery_image_id == gid)).filterMap
        (fun sl => sl.source_image_id)).Nodup)
    (hNew : (reqs.filterMap (fun r => r.source_image_id)).Nodup) :
    usageInvariant (update_gallery_image c gid reqs) := by
  intro s' hs'
  simp only [update_gallery_image] at hs' ⊢
  set old_slots := c.slots.filter (fun sl => sl.gallery_image_id == gid) with hold
  set O := (old_slots.filterMap (fun sl => truthySourceId sl.source_image_id)).dedup
    with hO
  set N := (requestIncIds c.sources reqs).dedup with hN
  set dec_ids := O.filter (fun sid => !(N.contains sid)) with hdec
  set inc_ids := N.filter (fun sid => !(O.contains sid)) with hinc
  -- generic facts about a source in the table
  have hOfact : ∀ s ∈ c.sources, (1 ≤ slotRefCount old_slots s.id ↔ s.id ∈ O) := by
    intro s hs
    rw [hO, List.mem_dedup, ← count_truthy_filterMap old_slots s.id (hpos s hs)]
    constructor
    · intro h1
      exact List.count_pos_iff.mp (by omega)
    · intro hm
      have := List.count_pos_iff.mpr hm
      omega
  have hOle : ∀ s ∈ c.sources, slotRefCount old_slots s.id ≤ 1 := by
    intro s hs
    rw [← count_source_filterMap old_slots s.id]
    exact List.nodup_iff_count_le_one.mp hOld s.id
  have hNfact : ∀ s ∈ c.sources,
      (1 ≤ (reqs.filter (fun r => r.source_image_id == some s.id)).length ↔
        s.id ∈ N) := by
    intro s hs
    rw [hN, List.mem_dedup,
      ← count_requestIncIds c.sources reqs s.id (hpos s hs) (sourceExists_of_mem hs)]
    constructor
    · intro h1
      exact List.count_pos_iff.mp (by omega)
    · intro hm
      have := List.count_pos_iff.mpr hm
      omega
  have hNle : ∀ s ∈ c.sources,
      (reqs.filter (fun r => r.source_image_id == some s.id)).length ≤ 1 := by
    intro s hs
    have := List.nodup_iff_count_le_one.mp hNew s.id
    rw [count_filterMap_eq_length_filter] at this
    exact this
  have hdecnodup : dec_ids.Nodup := (List.nodup_dedup _).filter _
  have hincnodup : inc_ids.Nodup := (List.nodup_dedup _).filter _
  have hdecmem : ∀ sid, sid ∈ dec_ids ↔ sid ∈ O ∧ sid ∉ N := by
    intro sid
    rw [hdec, List.mem_filter]
    simp
  have hincmem : ∀ sid, sid ∈ inc_ids ↔ sid ∈ N ∧ sid ∉ O := by
    intro sid
    rw [hinc, List.mem_filter]
    simp
  have hcountdec : ∀ sid, dec_ids.count sid = if sid ∈ dec_ids then 1 else 0 := by
    intro sid
    by_cases hm : sid ∈ dec_ids
    · simp [hm, List.count_eq_one_of_mem hdecnodup hm]
    · simp [hm, List.count_eq_zero.mpr hm]
  have hcountinc : ∀ sid, inc_ids.count sid = if sid ∈ inc_ids then 1 else 0 := by
    intro sid
    by_cases hm : sid ∈ inc_ids
    · simp [hm, List.count_eq_one_of_mem hincnodup hm]
    · simp [hm, List.count_eq_zero.mpr hm]
  have hsplit : ∀ sid, slotRefCount old_slots sid +
      slotRefCount (c.slots.filter (fun sl => !(sl.gallery_image_id == gid))) sid =
      slotRefCount c.slots sid :=
    fun sid => slotRefCount_filter_split _ c.slots sid
  have hle : ∀ s ∈ c.sources, ((dec_ids.count s.id : Int)) ≤ s.usage_count := by
    intro s hs
    rw [hinv s hs, hcountdec]
    by_cases hm : s.id ∈ dec_ids
    · have hO1 : s.id ∈ O := ((hdecmem s.id).mp hm).1
      have := (hOfact s hs).mpr hO1
      have := hsplit s.id
      simp only [hm, if_true]
      push_cast
      omega
    · simp only [hm, if_false]
      positivity
  rw [batch_decrement_usage_fst _ _ hle, batch_increment_usage_fst, List.map_map]
    at hs'
  obtain ⟨s, hs, rfl⟩ := List.mem_map.mp hs'
  simp only [Function.comp_apply]
  show s.usage_count - (dec_ids.count s.id : Int) + (inc_ids.count s.id : Int) =
    (slotRefCount ((c.slots.filter (fun sl => !(sl.gallery_image_id == gid))) ++
      reqs.map (fun r => Slot.mk gid r.slot_number r.source_image_id)) s.id : Int)
  rw [slotRefCount_append, slotRefCount_map_req, hinv s hs, hcountdec, hcountinc]
  have h1 := hOfact s hs
  have h2 := hOle s hs
  have h3 := hNfact s hs
  have h4 := hNle s hs
  have h5 := hsplit s.id
  by_cases hmO : s.id ∈ O <;> by_cases hmN : s.id ∈ N
  · have hd : s.id ∉ dec_ids := fun hm => ((hdecmem s.id).mp hm).2 hmN
    have hi : s.id ∉ inc_ids := fun hm => ((hincmem s.id).mp hm).2 hmO
    simp only [hd, hi, if_false]
    have hq1 := h1.mpr hmO
    have hq3 := h3.mpr hmN
    push_cast
    omega
  · have hd : s.id ∈ dec_ids := (hdecmem s.id).mpr ⟨hmO, hmN⟩
    have hi : s.id ∉ inc_ids := fun hm => ((hincmem s.id).mp hm).2 hmO
    have hq1 := h1.mpr hmO
    have hq3 : (reqs.filter (fun r => r.source_image_id == some s.id)).length = 0 := by
      by_contra hc
      exact hmN (h3.mp (by omega))
    simp only [hd, hi, if_true, if_false]
    push_cast
    omega
  · have hd : s.id ∉ dec_ids := fun hm => ((hdecmem s.id).mp hm).2 hmN
    have hi : s.id ∈ inc_ids := (hincmem s.id).mpr ⟨hmN, hmO⟩
    have hq1 : slotRefCount old_slots s.id = 0 := by
      by_contra hc
      exact hmO (h1.mp (by omega))
    have hq3 := h3.mpr hmN
    simp only [hd, hi, if_false, if_true]
    push_cast
    omega
  · have hd : s.id ∉ dec_ids := fun hm => hmO ((hdecmem s.id).mp hm).1
    have hi : s.id ∉ inc_ids := fun hm => hmN ((hincmem s.id).mp hm).1
    have hq1 : slotRefCount old_slots s.id = 0 := by
      by_contra hc
      exact hmO (h1.mp (by omega))
    have hq3 : (reqs.filter (fun r => r.source_image_id == some s.id)).length = 0 := by
      by_contra hc
      exact hmN (h3.mp (by omega))
    simp only [hd, hi, if_false]
    push_cast
    omega

/-! ### Claims C4 and C5 -/

/-- A catalog whose single source image is referenced by two slots of the same
gallery image, with a correct usage count. -/
def c4Catalog : Catalog :=
  { sources := [⟨1, 2⟩],
    slots := [⟨10, 0, some 1⟩, ⟨10, 1, some 1⟩] }

/-- Counterexample to claim C4: starting from a catalog satisfying the usage
invariant in which source image 1 is referenced by two slots of gallery image
10, replacing the slots by a single slot still referencing source 1 leaves the
usage count at 2 while only one slot remains — the set-difference adjustment in
`update_gallery_image` misses multiplicity changes. -/
theorem C4_counterexample :
    usageInvariant c4Catalog ∧
      ¬ usageInvariant (update_gallery_image c4Catalog 10 [⟨0, some 1⟩]) := by
  decide

/-- Claim C4 (amended): for a catalog of nonzero-id source images satisfying
the usage invariant, creating a gallery image (even with duplicate slot
references) and deleting a gallery image preserve the invariant, and replacing
a gallery image's slots preserves it provided neither the old nor the new slot
list references the same source image in more than one slot. -/
theorem C4_usage_invariant_after_mutations (c : Catalog) (hinv : usageInvariant c)
    (hpos : ∀ s ∈ c.sources, s.id ≠ 0) :
    (∀ gid reqs, usageInvariant (create_gallery_image c gid reqs)) ∧
    (∀ gid, usageInvariant (delete_gallery_image c gid)) ∧
    (∀ gid reqs,
      ((c.slots.filter (fun sl => sl.gallery_image_id == gid)).filterMap
          (fun sl => sl.source_image_id)).Nodup →
        (reqs.filterMap (fun r => r.source_image_id)).Nodup →
          usageInvariant (update_gallery_image c gid reqs)) :=
  ⟨fun gid reqs => create_preserves_invariant c hinv hpos gid reqs,
   fun gid => delete_preserves_invariant c hinv hpos gid,
   fun gid reqs hOld hNew => update_preserves_invariant c hinv hpos gid reqs hOld hNew⟩

/-- A concrete catalog for the C4 witness: two sources, one referenced slot. -/
def c4WitnessCatalog : Catalog :=
  { sources := [⟨1, 1⟩, ⟨2, 0⟩],
    slots := [⟨10, 0, some 1⟩] }

/-- Witness for C4 (amended) at a concrete catalog. -/
theorem C4_usage_invariant_after_mutations_witness :
    (usageInvariant c4WitnessCatalog ∧ (∀ s ∈ c4WitnessCatalog.sources, s.id ≠ 0)) ∧
      ((∀ gid reqs, usageInvariant (create_gallery_image c4WitnessCatalog gid reqs)) ∧
       (∀ gid, usageInvariant (delete_gallery_image c4WitnessCatalog gid)) ∧
       (∀ gid reqs,
         ((c4WitnessCatalog.slots.filter
             (fun sl => sl.gallery_image_id == gid)).filterMap
             (fun sl => sl.source_image_id)).Nodup →
           (reqs.filterMap (fun r => r.source_image_id)).Nodup →
             usageInvariant (update_gallery_image c4WitnessCatalog gid reqs))) :=
  ⟨⟨by decide, by decide⟩,
   C4_usage_invariant_after_mutations c4WitnessCatalog (by decide) (by decide)⟩

/-- Claim C5: starting from a table of non-negative usage counts, every
sequence of increment/decrement calls keeps all usage counts non-negative; a
decrement on a row whose count is already `≤ 0` clamps that row to 0 instead of
going negative; and a decrement on an existing row reports success in the
clamped as well as in the normal case. -/
theorem C5_usage_count_never_negative (srcs : List SourceImg) (h : allNonneg srcs) :
    (∀ ops : List UsageOp, allNonneg (ops.foldl applyUsageOp srcs)) ∧
    (∀ s ∈ srcs, s.usage_count ≤ 0 →
      ({ s with usage_count := 0 } : SourceImg) ∈ (decrement_usage srcs s.id).1) ∧
    (∀ s ∈ srcs, (decrement_usage srcs s.id).2 = true) := by
  refine ⟨fun ops => foldl_usageOps_nonneg h ops, ?_, ?_⟩
  · intro s hs hle
    unfold decrement_usage
    simp only [sourceExists_of_mem hs, if_true]
    refine List.mem_map.mpr ⟨s, hs, ?_⟩
    simp [hle]
  · intro s hs
    unfold decrement_usage
    simp [sourceExists_of_mem hs]

/-- The source-image table used by the C5 witness. -/
def c5Table : List SourceImg := [⟨1, 0⟩, ⟨2, 3⟩]

/-- Witness for C5 at a concrete two-row table. -/
theorem C5_usage_count_never_negative_witness :
    allNonneg c5Table ∧
      ((∀ ops : List UsageOp, allNonneg (ops.foldl applyUsageOp c5Table)) ∧
       (∀ s ∈ c5Table, s.usage_count ≤ 0 →
         ({ s with usage_count := 0 } : SourceImg) ∈ (decrement_usage c5Table s.id).1) ∧
       (∀ s ∈ c5Table, (decrement_usage c5Table s.id).2 = true)) :=
  ⟨by decide, C5_usage_count_never_negative c5Table (by decide)⟩

/-! ## Full recomputation (`recalculate_all_usage_counts`) -/

/-- The `{total_images, updated_count, negative_counts_corrected}` report. -/
structure RecalcReport where
  total_images : Nat
  updated_count : Nat
  negative_counts_corrected : Nat
deriving Repr, DecidableEq

/-- The distinct source ids referenced by at least one slot (the SQL
`GROUP BY source_image_id` over non-null references). -/
def referencedIds (slots : List Slot) : List Nat :=
  (slots.filterMap (fun sl => sl.source_image_id)).dedup

/-- One step of the per-group loop of `recalculate_all_usage_counts`: look up
the source image, note a negative count if its *current* count is negative,
then overwrite the count with the actual slot-reference count. -/
def recalcStep (slots : List Slot) (acc : List SourceImg × Nat × Nat) (sid : Nat) :
    List SourceImg × Nat × Nat :=
  match acc.1.find? (fun s => s.id == sid) with
  | some img =>
      (acc.1.map (fun s =>
        if s.id == sid then { s with usage_count := (slotRefCount slots sid : Int) }
        else s),
       acc.2.1 + 1,
       if img.usage_count < 0 then acc.2.2 + 1 else acc.2.2)
  | none => acc

/-- `recalculate_all_usage_counts`: first zero every usage count, then set each
referenced source image's count to its actual reference count, reporting the
number of rows updated and the negative counts observed by the loop. -/
def recalculate_all_usage_counts (c : Catalog) : Catalog × RecalcReport :=
  let zeroed := c.sources.map (fun s => { s with usage_count := 0 })
  let r := (referencedIds c.slots).foldl (recalcStep c.slots) (zeroed, 0, 0)
  ({ sources := r.1, slots := c.slots }, ⟨c.sources.length, r.2.1, r.2.2⟩)

lemma recalc_fold_sources (slots : List Slot) (L : List Nat) (srcs : List SourceImg)
    (u n : Nat) :
    (L.foldl (recalcStep slots) (srcs, u, n)).1 =
      srcs.map (fun s =>
        if s.id ∈ L then { s with usage_count := (slotRefCount slots s.id : Int) }
        else s) := by
  induction L generalizing srcs u n with
  | nil =>
    simp only [List.foldl_nil, List.not_mem_nil, if_false]
    exact (List.map_id srcs).symm
  | cons sid rest ih =>
    rw [List.foldl_cons]
    cases hf : srcs.find? (fun s => s.id == sid) with
    | some img =>
      have hstep : recalcStep slots (srcs, u, n) sid =
          (srcs.map (fun s =>
            if s.id == sid then
              { s with usage_count := (slotRefCount slots sid : Int) }
            else s),
           u + 1, if img.usage_count < 0 then n + 1 else n) := by
        unfold recalcStep
        rw [hf]
      rw [hstep, ih, List.map_map]
      congr 1
      funext s
      by_cases hid : s.id = sid
      · have hb : (s.id == sid) = true := by simp [hid]
        by_cases hr : s.id ∈ rest <;>
          simp [Function.comp_def, hb, hid, List.mem_cons, hr]
      · have hb : (s.id == sid) = false := by simp [hid]
        by_cases hr : s.id ∈ rest <;>
          simp [Function.comp_def, hb, hid, List.mem_cons, hr]
    | none =>
      have hstep : recalcStep slots (srcs, u, n) sid = (srcs, u, n) := by
        unfold recalcStep
        rw [hf]
      rw [hstep, ih]
      apply List.map_congr_left
      intro s hs
      have hne : ¬ s.id = sid := by
        have := List.find?_eq_none.mp hf s hs
        simpa using this
      by_cases hr : s.id ∈ rest <;> simp [List.mem_cons, hne, hr]

lemma recalc_fold_updated (slots : List Slot) (L : List Nat) (srcs : List SourceImg)
    (u n : Nat) :
    (L.foldl (recalcStep slots) (srcs, u, n)).2.1 =
      u + (L.filter (fun sid => srcs.any (fun s => s.id == sid))).length := by
  induction L generalizing srcs u n with
  | nil => simp
  | cons sid rest ih =>
    rw [List.foldl_cons]
    cases hf : srcs.find? (fun s => s.id == sid) with
    | some img =>
      have hany : srcs.any (fun s => s.id == sid) = true := by
        simp only [List.any_eq_true]
        have hp := List.find?_some hf
        exact ⟨img, List.mem_of_find?_eq_some hf, hp⟩
      have hstep : recalcStep slots (srcs, u, n) sid =
          (srcs.map (fun s =>
            if s.id == sid then
              { s with usage_count := (slotRefCount slots sid : Int) }
            else s),
           u + 1, if img.usage_count < 0 then n + 1 else n) := by
        unfold recalcStep
        rw [hf]
      rw [hstep, ih]
      have hsame : ∀ x, (srcs.map (fun s =>
          if s.id == sid then
            { s with usage_count := (slotRefCount slots sid : Int) }
          else s)).any (fun s => s.id == x) = srcs.any (fun s => s.id == x) := by
        intro x
        rw [List.any_map]
        congr 1
        funext s
        by_cases hid : s.id = sid <;> simp [Function.comp_def, hid]
      have hfilter : (rest.filter (fun sid2 => (srcs.map (fun s =>
          if s.id == sid then
            { s with usage_count := (slotRefCount slots sid : Int) }
          else s)).any (fun s => s.id == sid2))) =
          rest.filter (fun sid2 => srcs.any (fun s => s.id == sid2)) := by
        apply List.filter_congr
        intro x _
        exact hsame x
      rw [hfilter, List.filter_cons, hany]
      simp only [if_true, List.length_cons]
      omega
    | none =>
      have hany : srcs.any (fun s => s.id == sid) = false := by
        rw [List.find?_eq_none] at hf
        rw [List.any_eq_false]
        intro s hs
        exact hf s hs
      have hstep : recalcStep slots (srcs, u, n) sid = (srcs, u, n) := by
        unfold recalcStep
        cases hf2 : srcs.find? (fun s => s.id == sid) with
        | some img => rw [hf] at hf2; cases hf2
        | none => rfl
      rw [hstep, ih]
      congr 1
      rw [List.filter_cons]
      simp [hany]

lemma recalc_fold_neg (slots : List Slot) (L : List Nat) (srcs : List SourceImg)
    (u n : Nat) (h : allNonneg srcs) :
    (L.foldl (recalcStep slots) (srcs, u, n)).2.2 = n ∧
      allNonneg (L.foldl (recalcStep slots) (srcs, u, n)).1 := by
  induction L generalizing srcs u n with
  | nil => exact ⟨rfl, h⟩
  | cons sid rest ih =>
    rw [List.foldl_cons]
    cases hf : srcs.find? (fun s => s.id == sid) with
    | some img =>
      have himg : 0 ≤ img.usage_count := h img (List.mem_of_find?_eq_some hf)
      have hneg : ¬ img.usage_count < 0 := by omega
      have hstep : recalcStep slots (srcs, u, n) sid =
          (srcs.map (fun s =>
            if s.id == sid then
              { s with usage_count := (slotRefCount slots sid : Int) }
            else s),
           u + 1, n) := by
        unfold recalcStep
        rw [hf]
        simp [hneg]
      rw [hstep]
      apply ih
      intro s hs
      obtain ⟨t, ht, rfl⟩ := List.mem_map.mp hs
      by_cases hb : (t.id == sid) = true
      · simp only [hb, if_true]
        positivity
      · simp only [hb, Bool.false_eq_true, if_false]
        exact h t ht
    | none =>
      have hstep : recalcStep slots (srcs, u, n) sid = (srcs, u, n) := by
        unfold recalcStep
        rw [hf]
      rw [hstep]
      apply ih
      exact h

lemma recalc_sources_formula (c : Catalog) :
    (recalculate_all_usage_counts c).1.sources =
      c.sources.map (fun s =>
        { s with usage_count :=
            if s.id ∈ referencedIds c.slots then (slotRefCount c.slots s.id : Int)
            else 0 }) := by
  show ((referencedIds c.slots).foldl (recalcStep c.slots)
      (c.sources.map (fun s => { s with usage_count := 0 }), 0, 0)).1 = _
  rw [recalc_fold_sources, List.map_map]
  congr 1
  funext s
  by_cases h : s.id ∈ referencedIds c.slots <;> simp [Function.comp_def, h]

lemma recalc_slots_eq (c : Catalog) :
    (recalculate_all_usage_counts c).1.slots = c.slots := rfl

lemma recalc_report_formula (c : Catalog) :
    (recalculate_all_usage_counts c).2 =
      ⟨c.sources.length,
       ((referencedIds c.slots).filter (fun sid => sourceExists c.sources sid)).length,
       0⟩ := by
  have hz : allNonneg (c.sources.map (fun s => { s with usage_count := 0 })) := by
    intro s hs
    obtain ⟨t, _, rfl⟩ := List.mem_map.mp hs
    simp
  have hneg := (recalc_fold_neg c.slots (referencedIds c.slots)
    (c.sources.map (fun s => { s with usage_count := 0 })) 0 0 hz).1
  have hupd := recalc_fold_updated c.slots (referencedIds c.slots)
    (c.sources.map (fun s => { s with usage_count := 0 })) 0 0
  have hany : ∀ x, (c.sources.map (fun s => { s with usage_count := 0 })).any
      (fun s => s.id == x) = sourceExists c.sources x := by
    intro x
    rw [List.any_map]
    rfl
  show (⟨c.sources.length,
      ((referencedIds c.slots).foldl (recalcStep c.slots)
        (c.sources.map (fun s => { s with usage_count := 0 }), 0, 0)).2.1,
      ((referencedIds c.slots).foldl (recalcStep c.slots)
        (c.sources.map (fun s => { s with usage_count := 0 }), 0, 0)).2.2⟩ :
    RecalcReport) = _
  rw [hneg, hupd]
  simp only [RecalcReport.mk.injEq, true_and, and_true, Nat.zero_add]
  congr 1
  apply List.filter_congr
  intro x _
  exact hany x

lemma Catalog_eq_of {a b : Catalog} (h1 : a.sources = b.sources)
    (h2 : a.slots = b.slots) : a = b := by
  cases a
  cases b
  simp_all

lemma sourceExists_map_usage (X : List SourceImg) (g : SourceImg → Int) (x : Nat) :
    sourceExists (X.map (fun s => { s with usage_count := g s })) x =
      sourceExists X x := by
  unfold sourceExists
  rw [List.any_map]
  rfl

/-- The catalog for the C6 counterexample: a source image with a negative
usage count, referenced by one slot. -/
def c6Catalog : Catalog := { sources := [⟨1, -5⟩], slots := [⟨10, 0, some 1⟩] }

/-- Counterexample to claim C6: a run started from a state with a negative
usage count reports `negative_counts_corrected = 0` (the zeroing pass runs
before the negativity check, so the check never sees the negative value), and
the report of an immediate second run has `updated_count = 1`, not 0. -/
theorem C6_counterexample :
    (recalculate_all_usage_counts c6Catalog).2.negative_counts_corrected = 0 ∧
      (recalculate_all_usage_counts
        (recalculate_all_usage_counts c6Catalog).1).2.updated_count = 1 := by
  decide

/-- Claim C6 (amended): `recalculate_all_usage_counts` is idempotent on the
catalog state and its report — an immediate second run changes no usage count
and returns the same report — but `updated_count` equals the number of distinct
source ids referenced by slots and present in the catalog (it is not 0 on a
second run), and `negative_counts_corrected` is always 0, even when the run
starts from negative counts, because counts are zeroed before the check. -/
theorem C6_recalculate_idempotent (c : Catalog) :
    (recalculate_all_usage_counts (recalculate_all_usage_counts c).1).1 =
        (recalculate_all_usage_counts c).1 ∧
    (recalculate_all_usage_counts (recalculate_all_usage_counts c).1).2 =
        (recalculate_all_usage_counts c).2 ∧
    (recalculate_all_usage_counts c).2.negative_counts_corrected = 0 ∧
    (recalculate_all_usage_counts c).2.updated_count =
      ((referencedIds c.slots).filter
        (fun sid => sourceExists c.sources sid)).length := by
  have hslots : (recalculate_all_usage_counts c).1.slots = c.slots :=
    recalc_slots_eq c
  have hsrc := recalc_sources_formula c
  have hsrc1 := recalc_sources_formula (recalculate_all_usage_counts c).1
  rw [hslots] at hsrc1
  refine ⟨?_, ?_, ?_, ?_⟩
  · apply Catalog_eq_of
    · rw [hsrc1, hsrc, List.map_map]
      apply List.map_congr_left
      intro s _
      by_cases h : s.id ∈ referencedIds c.slots <;> simp [Function.comp_def, h]
    · rw [recalc_slots_eq, recalc_slots_eq]
  · rw [recalc_report_formula ((recalculate_all_usage_counts c).1),
      recalc_report_formula c, hslots]
    simp only [RecalcReport.mk.injEq]
    refine ⟨?_, ?_, trivial⟩
    · rw [hsrc]
      simp
    · congr 1
      apply List.filter_congr
      intro x _
      rw [hsrc]
      exact sourceExists_map_usage c.sources _ x
  · rw [recalc_report_formula c]
  · rw [recalc_report_formula c]

/-! ## Sync planner and executor (`tv_sync_smart.py`) -/

/-- `db_client.get_gallery_image`: resolve a gallery image id in the catalog. -/
def getGalleryImage (catalog : List GImg) (i : Nat) : Option GImg :=
  catalog.find? (fun g => g.id == i)

/-- The target gallery images that resolved, in target order. -/
def resolvedImages (catalog : List GImg) (targets : List Nat) : List GImg :=
  targets.filterMap (getGalleryImage catalog)

/-- The per-item "not found" failure records for targets that did not resolve. -/
def resolutionFailures (catalog : List GImg) (targets : List Nat) :
    List SyncFailure :=
  (targets.filter (fun t => (getGalleryImage catalog t).isNone)).map
    (fun t => ⟨"ID:" ++ toString t, "Gallery image not found in database"⟩)

/-- The app-managed mappings (`gallery_image_id is not null`). -/
def appManagedMappings (ms : List Mapping) : List Mapping :=
  ms.filter (fun m => m.gallery_image_id.isSome)

/-- Reset-mode delete set: app-managed mappings whose gallery id is not among
the ids of the resolved targets. -/
def mappingsToDelete (catalog : List GImg) (ms : List Mapping)
    (targets : List Nat) : List Mapping :=
  let selected := (resolvedImages catalog targets).map (fun g => g.id)
  (appManagedMappings ms).filter (fun m =>
    match m.gallery_image_id with
    | some g => !(selected.contains g)
    | none => true)

/-- `db_client.get_tv_content_by_gallery_image_id`. -/
def get_tv_content_by_gallery_image_id (ms : List Mapping) (gid : Nat) :
    Option Mapping :=
  ms.find? (fun m => m.gallery_image_id == some gid)

/-- Reset-mode upload set: resolved targets with no app-managed mapping. -/
def imagesToUploadReset (catalog : List GImg) (ms : List Mapping)
    (targets : List Nat) : List GImg :=
  let existing := (appManagedMappings ms).filterMap (fun m => m.gallery_image_id)
  (resolvedImages catalog targets).filter (fun g => !(existing.contains g.id))

/-- Add-mode upload set: resolved targets with no mapping at all. -/
def imagesToUploadAdd (catalog : List GImg) (ms : List Mapping)
    (targets : List Nat) : List GImg :=
  (resolvedImages catalog targets).filter
    (fun g => (get_tv_content_by_gallery_image_id ms g.id).isNone)

/-- The device-session behavior observed by one sync invocation: the upload
outcome per gallery image (`none` = failed upload), whether the image file
exists on disk, and whether the batch delete call succeeds. -/
structure Device where
  uploadResult : GImg → Option String
  fileExists : GImg → Bool
  deleteOk : Bool

/-- Executor state threaded through the per-item upload loop. -/
structure ExecState where
  mappings : List Mapping
  synced : List String
  failed : List SyncFailure
  nextId : Nat
deriving Repr, DecidableEq

/-- The mapping created after a confirmed upload. -/
def newSyncedMapping (mid gid : Nat) (cid : String) : Mapping :=
  { id := mid, gallery_image_id := some gid, tv_content_id := cid,
    sync_status := "synced" }

/-- Process one upload plan item: read the image file, upload it, and record
the outcome (a created mapping, or a per-item failure record). -/
def execUploadItem (dev : Device) (st : ExecState) (g : GImg) : ExecState :=
  if dev.fileExists g then
    match dev.uploadResult g with
    | some cid =>
        { st with
          mappings := st.mappings ++ [newSyncedMapping st.nextId g.id cid],
          synced := st.synced ++ [g.filename],
          nextId := st.nextId + 1 }
    | none => { st with failed := st.failed ++ [⟨g.filename, "Upload failed"⟩] }
  else { st with failed := st.failed ++ [⟨g.filename, "File not found"⟩] }

/-- Process all upload plan items sequentially. -/
def execUploads (dev : Device) (items : List GImg) (st : ExecState) : ExecState :=
  items.foldl (execUploadItem dev) st

/-- A fresh mapping id, larger than every existing one. -/
def freshId (ms : List Mapping) : Nat :=
  ms.foldl (fun a m => max a m.id) 0 + 1

/-- Whether an upload item will succeed against this device session. -/
def uploadSucceeds (dev : Device) (g : GImg) : Bool :=
  dev.fileExists g && (dev.uploadResult g).isSome

/-- The result of `sync_add_mode` / `sync_reset_mode`, paired with the mapping
table after execution. -/
structure SyncOutcome where
  success : Bool
  synced : List String
  failed : List SyncFailure
  total : Nat
  successful : Nat
  mappings : List Mapping
deriving Repr

/-- `sync_add_mode`: resolve the targets (recording "not found" failures), fail
if none resolved, return success early if every resolved target is already
mapped, otherwise upload the plan items and report `len(synced) > 0`. -/
def sync_add_mode (catalog : List GImg) (dev : Device) (ms : List Mapping)
    (targets : List Nat) : SyncOutcome :=
  let gallery_images := resolvedImages catalog targets
  let failed0 := resolutionFailures catalog targets
  if gallery_images.isEmpty then
    ⟨false, [], failed0, targets.length, 0, ms⟩
  else
    let plan := imagesToUploadAdd catalog ms targets
    if plan.isEmpty then
      ⟨true, [], [], targets.length, 0, ms⟩
    else
      let st := execUploads dev plan ⟨ms, [], failed0, freshId ms⟩
      ⟨!st.synced.isEmpty, st.synced, st.failed, targets.length,
        st.synced.length, st.mappings⟩

/-- `sync_reset_mode`: delete the app-managed mappings outside the resolved
selection (mappings are removed from the table only when the device delete
call succeeds), upload the missing targets, and report
`len(synced) > 0 or len(mappings_to_delete) > 0`. -/
def sync_reset_mode (catalog : List GImg) (dev : Device) (ms : List Mapping)
    (targets : List Nat) : SyncOutcome :=
  let failed0 := resolutionFailures catalog targets
  let toDelete := mappingsToDelete catalog ms targets
  let toUpload := imagesToUploadReset catalog ms targets
  let ms1 :=
    if toDelete.isEmpty then ms
    else if dev.deleteOk then
      ms.filter (fun m => !((toDelete.map (fun d => d.id)).contains m.id))
    else ms
  let st := execUploads dev toUpload ⟨ms1, [], failed0, freshId ms⟩
  ⟨!st.synced.isEmpty || !toDelete.isEmpty, st.synced, st.failed, targets.length,
    st.synced.length, st.mappings⟩

/-! ### Executor characterizations -/

lemma execUploads_cons (dev : Device) (g : GImg) (rest : List GImg)
    (st : ExecState) :
    execUploads dev (g :: rest) st = execUploads dev rest (execUploadItem dev st g) :=
  rfl

/-- The per-item failure record an upload item produces, if any. -/
def uploadFailureRecord (dev : Device) (g : GImg) : Option SyncFailure :=
  if dev.fileExists g then
    match dev.uploadResult g with
    | some _ => none
    | none => some ⟨g.filename, "Upload failed"⟩
  else some ⟨g.filename, "File not found"⟩

/-- The mappings the upload loop creates, with their assigned ids. -/
def createdMappings (dev : Device) (items : List GImg) (nid : Nat) : List Mapping :=
  match items with
  | [] => []
  | g :: rest =>
    if dev.fileExists g then
      match dev.uploadResult g with
      | some cid =>
          newSyncedMapping nid g.id cid :: createdMappings dev rest (nid + 1)
      | none => createdMappings dev rest nid
    else createdMappings dev rest nid

lemma execUploadItem_success {dev : Device} {g : GImg} {cid : String}
    (hf : dev.fileExists g = true) (hu : dev.uploadResult g = some cid)
    (st : ExecState) :
    execUploadItem dev st g =
      { st with mappings := st.mappings ++ [newSyncedMapping st.nextId g.id cid],
                synced := st.synced ++ [g.filename],
                nextId := st.nextId + 1 } := by
  unfold execUploadItem
  rw [hf, hu]
  simp

lemma execUploadItem_uploadFail {dev : Device} {g : GImg}
    (hf : dev.fileExists g = true) (hu : dev.uploadResult g = none)
    (st : ExecState) :
    execUploadItem dev st g =
      { st with failed := st.failed ++ [⟨g.filename, "Upload failed"⟩] } := by
  unfold execUploadItem
  rw [hf, hu]
  simp

lemma execUploadItem_fileMissing {dev : Device} {g : GImg}
    (hf : dev.fileExists g = false) (st : ExecState) :
    execUploadItem dev st g =
      { st with failed := st.failed ++ [⟨g.filename, "File not found"⟩] } := by
  unfold execUploadItem
  rw [hf]
  simp

lemma execUploads_spec (dev : Device) (items : List GImg) (st : ExecState) :
    (execUploads dev items st).mappings =
        st.mappings ++ createdMappings dev items st.nextId ∧
      (execUploads dev items st).synced =
        st.synced ++ (items.filter (uploadSucceeds dev)).map (fun g => g.filename) ∧
      (execUploads dev items st).failed =
        st.failed ++ items.filterMap (uploadFailureRecord dev) := by
  induction items generalizing st with
  | nil => simp [execUploads, createdMappings]
  | cons g rest ih =>
    rw [execUploads_cons]
    by_cases hf : dev.fileExists g
    · cases hu : dev.uploadResult g with
      | some cid =>
        rw [execUploadItem_success hf hu]
        obtain ⟨h1, h2, h3⟩ := ih
          { st with mappings := st.mappings ++ [newSyncedMapping st.nextId g.id cid],
                    synced := st.synced ++ [g.filename],
                    nextId := st.nextId + 1 }
        refine ⟨?_, ?_, ?_⟩
        · rw [h1]
          simp only [createdMappings, hf, hu, if_true]
          rw [List.append_assoc]
          rfl
        · rw [h2]
          have hsucc : uploadSucceeds dev g = true := by
            simp [uploadSucceeds, hf, hu]
          rw [List.filter_cons, hsucc]
          simp
        · rw [h3]
          have hrec : uploadFailureRecord dev g = none := by
            simp [uploadFailureRecord, hf, hu]
          rw [List.filterMap_cons, hrec]
      | none =>
        rw [execUploadItem_uploadFail hf hu]
        obtain ⟨h1, h2, h3⟩ := ih
          { st with failed := st.failed ++ [⟨g.filename, "Upload failed"⟩] }
        refine ⟨?_, ?_, ?_⟩
        · rw [h1]
          simp only [createdMappings, hf, hu, if_true]
        · rw [h2]
          have hsucc : uploadSucceeds dev g = false := by
            simp [uploadSucceeds, hf, hu]
          rw [List.filter_cons, hsucc]
          simp
        · rw [h3]
          have hrec : uploadFailureRecord dev g =
              some ⟨g.filename, "Upload failed"⟩ := by
            simp [uploadFailureRecord, hf, hu]
          rw [List.filterMap_cons, hrec]
          simp
    · have hf2 : dev.fileExists g = false := by simpa using hf
      rw [execUploadItem_fileMissing hf2]
      obtain ⟨h1, h2, h3⟩ := ih
        { st with failed := st.failed ++ [⟨g.filename, "File not found"⟩] }
      refine ⟨?_, ?_, ?_⟩
      · rw [h1]
        simp only [createdMappings, hf2, Bool.false_eq_true, if_false]
      · rw [h2]
        have hsucc : uploadSucceeds dev g = false := by
          simp [uploadSucceeds, hf2]
        rw [List.filter_cons, hsucc]
        simp
      · rw [h3]
        have hrec : uploadFailureRecord dev g =
            some ⟨g.filename, "File not found"⟩ := by
          simp [uploadFailureRecord, hf2]
        rw [List.filterMap_cons, hrec]
        simp

lemma succ_plus_fail_length (dev : Device) (items : List GImg) :
    (items.filter (uploadSucceeds dev)).length +
      (items.filterMap (uploadFailureRecord dev)).length = items.length := by
  induction items with
  | nil => rfl
  | cons g rest ih =>
    by_cases hf : dev.fileExists g
    · cases hu : dev.uploadResult g with
      | some cid =>
        simp only [List.filter_cons, List.filterMap_cons]
        have hsucc : uploadSucceeds dev g = true := by simp [uploadSucceeds, hf, hu]
        have hrec : uploadFailureRecord dev g = none := by
          simp [uploadFailureRecord, hf, hu]
        rw [hsucc, hrec]
        simp only [if_true, List.length_cons]
        omega
      | none =>
        simp only [List.filter_cons, List.filterMap_cons]
        have hsucc : uploadSucceeds dev g = false := by simp [uploadSucceeds, hf, hu]
        have hrec : uploadFailureRecord dev g = some ⟨g.filename, "Upload failed"⟩ := by
          simp [uploadFailureRecord, hf, hu]
        rw [hsucc, hrec]
        simp only [Bool.false_eq_true, if_false, List.length_cons]
        omega
    · have hf2 : dev.fileExists g = false := by simpa using hf
      simp only [List.filter_cons, List.filterMap_cons]
      have hsucc : uploadSucceeds dev g = false := by simp [uploadSucceeds, hf2]
      have hrec : uploadFailureRecord dev g = some ⟨g.filename, "File not found"⟩ := by
        simp [uploadFailureRecord, hf2]
      rw [hsucc, hrec]
      simp only [Bool.false_eq_true, if_false, List.length_cons]
      omega

lemma createdMappings_ids_ge (dev : Device) :
    ∀ (items : List GImg) (nid : Nat), ∀ m ∈ createdMappings dev items nid,
      nid ≤ m.id := by
  intro items
  induction items with
  | nil =>
    intro nid m hm
    simp [createdMappings] at hm
  | cons g rest ih =>
    intro nid m hm
    by_cases hf : dev.fileExists g
    · cases hu : dev.uploadResult g with
      | some cid =>
        simp only [createdMappings, hf, hu, if_true] at hm
        rcases List.mem_cons.mp hm with rfl | hm2
        · exact le_rfl
        · exact le_trans (by omega) (ih (nid + 1) m hm2)
      | none =>
        simp only [createdMappings, hf, hu, if_true] at hm
        exact ih nid m hm
    · have hf2 : dev.fileExists g = false := by simpa using hf
      simp only [createdMappings, hf2, Bool.false_eq_true, if_false] at hm
      exact ih nid m hm

lemma createdMappings_gallery_ids (dev : Device) :
    ∀ (items : List GImg) (nid : Nat),
      (createdMappings dev items nid).filterMap (fun m => m.gallery_image_id) =
        (items.filter (uploadSucceeds dev)).map (fun g => g.id) := by
  intro items
  induction items with
  | nil => intro nid; rfl
  | cons g rest ih =>
    intro nid
    by_cases hf : dev.fileExists g
    · cases hu : dev.uploadResult g with
      | some cid =>
        have hsucc : uploadSucceeds dev g = true := by simp [uploadSucceeds, hf, hu]
        simp only [createdMappings, hf, hu, if_true, List.filterMap_cons,
          List.filter_cons, hsucc]
        simp [newSyncedMapping, ih]
      | none =>
        have hsucc : uploadSucceeds dev g = false := by simp [uploadSucceeds, hf, hu]
        simp only [createdMappings, hf, hu, if_true, List.filter_cons, hsucc]
        simp [ih]
    · have hf2 : dev.fileExists g = false := by simpa using hf
      have hsucc : uploadSucceeds dev g = false := by simp [uploadSucceeds, hf2]
      simp only [createdMappings, hf2, Bool.false_eq_true, if_false,
        List.filter_cons, hsucc]
      simp [ih]

lemma createdMappings_mem_spec (dev : Device) :
    ∀ (items : List GImg) (nid : Nat), ∀ m ∈ createdMappings dev items nid,
      m.sync_status = "synced" ∧
        ∃ g ∈ items, dev.fileExists g = true ∧
          dev.uploadResult g = some m.tv_content_id ∧
          m.gallery_image_id = some g.id := by
  intro items
  induction items with
  | nil =>
    intro nid m hm
    simp [createdMappings] at hm
  | cons g rest ih =>
    intro nid m hm
    by_cases hf : dev.fileExists g
    · cases hu : dev.uploadResult g with
      | some cid =>
        simp only [createdMappings, hf, hu, if_true] at hm
        rcases List.mem_cons.mp hm with rfl | hm2
        · exact ⟨rfl, g, List.mem_cons_self g rest, hf, hu, rfl⟩
        · obtain ⟨hst, g2, hg2, hrest⟩ := ih (nid + 1) m hm2
          exact ⟨hst, g2, List.mem_cons_of_mem g hg2, hrest⟩
      | none =>
        simp only [createdMappings, hf, hu, if_true] at hm
        obtain ⟨hst, g2, hg2, hrest⟩ := ih nid m hm
        exact ⟨hst, g2, List.mem_cons_of_mem g hg2, hrest⟩
    · have hf2 : dev.fileExists g = false := by simpa using hf
      simp only [createdMappings, hf2, Bool.false_eq_true, if_false] at hm
      obtain ⟨hst, g2, hg2, hrest⟩ := ih nid m hm
      exact ⟨hst, g2, List.mem_cons_of_mem g hg2, hrest⟩

lemma init_le_foldl_max (l : List Nat) (a : Nat) : a ≤ l.foldl max a := by
  induction l generalizing a with
  | nil => exact le_rfl
  | cons x rest ih => exact le_trans (le_max_left a x) (ih (max a x))

lemma mem_le_foldl_max (l : List Nat) (a : Nat) : ∀ b ∈ l, b ≤ l.foldl max a := by
  induction l generalizing a with
  | nil =>
    intro b hb
    cases hb
  | cons x rest ih =>
    intro b hb
    rw [List.foldl_cons]
    rcases List.mem_cons.mp hb with rfl | hb2
    · exact le_trans (le_max_right a b) (init_le_foldl_max rest (max a b))
    · exact ih (max a x) b hb2

lemma id_lt_freshId {ms : List Mapping} {m : Mapping} (h : m ∈ ms) :
    m.id < freshId ms := by
  unfold freshId
  have h2 : ms.foldl (fun a x => max a x.id) 0 =
      (ms.map (fun x => x.id)).foldl max 0 := by
    rw [List.foldl_map]
  have h3 : m.id ≤ (ms.map (fun x => x.id)).foldl max 0 :=
    mem_le_foldl_max _ 0 m.id (List.mem_map_of_mem _ h)
  omega

/-! ### Planner characterizations -/

lemma getGalleryImage_some_id {catalog : List GImg} {t : Nat} {g : GImg}
    (h : getGalleryImage catalog t = some g) : g.id = t := by
  have := List.find?_some h
  simpa using this

lemma mem_resolvedImages {catalog : List GImg} {targets : List Nat} {g : GImg} :
    g ∈ resolvedImages catalog targets ↔
      ∃ t ∈ targets, getGalleryImage catalog t = some g := by
  unfold resolvedImages
  rw [List.mem_filterMap]

lemma resolved_id_mem_targets {catalog : List GImg} {targets : List Nat} {g : GImg}
    (h : g ∈ resolvedImages catalog targets) : g.id ∈ targets := by
  obtain ⟨t, ht, hr⟩ := mem_resolvedImages.mp h
  rw [getGalleryImage_some_id hr]
  exact ht

lemma resolve_self {catalog : List GImg} {targets : List Nat} {g : GImg}
    (h : g ∈ resolvedImages catalog targets) :
    getGalleryImage catalog g.id = some g := by
  obtain ⟨t, ht, hr⟩ := mem_resolvedImages.mp h
  rw [getGalleryImage_some_id hr]
  exact hr

lemma exists_resolved_iff {catalog : List GImg} {targets : List Nat}
    (hres : ∀ t ∈ targets, (getGalleryImage catalog t).isSome) (gid : Nat) :
    (∃ g ∈ resolvedImages catalog targets, g.id = gid) ↔ gid ∈ targets := by
  constructor
  · rintro ⟨g, hg, rfl⟩
    exact resolved_id_mem_targets hg
  · intro hgid
    obtain ⟨g, hg⟩ := Option.isSome_iff_exists.mp (hres gid hgid)
    exact ⟨g, mem_resolvedImages.mpr ⟨gid, hgid, hg⟩, getGalleryImage_some_id hg⟩

lemma mem_selected_iff {catalog : List GImg} {targets : List Nat}
    (hres : ∀ t ∈ targets, (getGalleryImage catalog t).isSome) (gid : Nat) :
    gid ∈ (resolvedImages catalog targets).map (fun g => g.id) ↔ gid ∈ targets := by
  rw [List.mem_map]
  constructor
  · rintro ⟨g, hg, rfl⟩
    exact resolved_id_mem_targets hg
  · intro h
    obtain ⟨g, hg, he⟩ := (exists_resolved_iff hres gid).mpr h
    exact ⟨g, hg, he⟩

lemma existing_gallery_iff (ms : List Mapping) (gid : Nat) :
    gid ∈ (appManagedMappings ms).filterMap (fun m => m.gallery_image_id) ↔
      ∃ m ∈ ms, m.gallery_image_id = some gid := by
  rw [List.mem_filterMap]
  constructor
  · rintro ⟨m, hm, he⟩
    exact ⟨m, (List.mem_filter.mp hm).1, he⟩
  · rintro ⟨m, hm, he⟩
    refine ⟨m, List.mem_filter.mpr ⟨hm, ?_⟩, he⟩
    simp [appManagedMappings, he]

lemma get_tv_content_isNone_iff (ms : List Mapping) (gid : Nat) :
    (get_tv_content_by_gallery_image_id ms gid).isNone = true ↔
      ¬ ∃ m ∈ ms, m.gallery_image_id = some gid := by
  unfold get_tv_content_by_gallery_image_id
  rw [Option.isNone_iff_eq_none, List.find?_eq_none]
  constructor
  · rintro h ⟨m, hm, he⟩
    exact h m hm (by simp [he])
  · intro h m hm hbe
    exact h ⟨m, hm, by simpa using hbe⟩

lemma mem_mappingsToDelete_iff {catalog : List GImg} {targets : List Nat}
    {ms : List Mapping}
    (hres : ∀ t ∈ targets, (getGalleryImage catalog t).isSome) (m : Mapping) :
    m ∈ mappingsToDelete catalog ms targets ↔
      (m ∈ ms ∧ ∃ gid, m.gallery_image_id = some gid ∧ gid ∉ targets) := by
  unfold mappingsToDelete
  rw [List.mem_filter]
  constructor
  · rintro ⟨hmem, hpred⟩
    have hms : m ∈ ms := (List.mem_filter.mp hmem).1
    have hsome : m.gallery_image_id.isSome = true := by
      have := (List.mem_filter.mp hmem).2
      simpa [appManagedMappings] using this
    obtain ⟨gid, hg⟩ := Option.isSome_iff_exists.mp hsome
    refine ⟨hms, gid, hg, ?_⟩
    rw [hg] at hpred
    have hni : gid ∉ (resolvedImages catalog targets).map (fun g => g.id) := by
      simpa using hpred
    intro hmem2
    exact hni ((mem_selected_iff hres gid).mpr hmem2)
  · rintro ⟨hms, gid, hg, hnot⟩
    refine ⟨List.mem_filter.mpr ⟨hms, by simp [appManagedMappings, hg]⟩, ?_⟩
    rw [hg]
    have hni : gid ∉ (resolvedImages catalog targets).map (fun g => g.id) := by
      intro hsel
      exact hnot ((mem_selected_iff hres gid).mp hsel)
    simpa using hni

lemma mem_toUploadReset_iff {catalog : List GImg} {targets : List Nat}
    {ms : List Mapping}
    (hres : ∀ t ∈ targets, (getGalleryImage catalog t).isSome) (gid : Nat) :
    (∃ g ∈ imagesToUploadReset catalog ms targets, g.id = gid) ↔
      (gid ∈ targets ∧ ¬ ∃ m ∈ ms, m.gallery_image_id = some gid) := by
  unfold imagesToUploadReset
  constructor
  · rintro ⟨g, hg, rfl⟩
    rw [List.mem_filter] at hg
    obtain ⟨hgr, hpred⟩ := hg
    refine ⟨resolved_id_mem_targets hgr, ?_⟩
    intro hex
    have hmem : g.id ∈ (appManagedMappings ms).filterMap
        (fun m => m.gallery_image_id) := (existing_gallery_iff ms g.id).mpr hex
    have hni : g.id ∉ (appManagedMappings ms).filterMap
        (fun m => m.gallery_image_id) := by simpa using hpred
    exact hni hmem
  · rintro ⟨hmem, hnone⟩
    obtain ⟨g, hg, hge⟩ := (exists_resolved_iff hres gid).mpr hmem
    subst hge
    refine ⟨g, List.mem_filter.mpr ⟨hg, ?_⟩, rfl⟩
    have hni : g.id ∉ (appManagedMappings ms).filterMap
        (fun m => m.gallery_image_id) := by
      intro hc
      exact hnone ((existing_gallery_iff ms g.id).mp hc)
    simpa using hni

lemma mem_toUploadAdd_iff {catalog : List GImg} {targets : List Nat}
    {ms : List Mapping}
    (hres : ∀ t ∈ targets, (getGalleryImage catalog t).isSome) (gid : Nat) :
    (∃ g ∈ imagesToUploadAdd catalog ms targets, g.id = gid) ↔
      (gid ∈ targets ∧ ¬ ∃ m ∈ ms, m.gallery_image_id = some gid) := by
  unfold imagesToUploadAdd
  constructor
  · rintro ⟨g, hg, rfl⟩
    rw [List.mem_filter] at hg
    obtain ⟨hgr, hpred⟩ := hg
    exact ⟨resolved_id_mem_targets hgr, (get_tv_content_isNone_iff ms g.id).mp hpred⟩
  · rintro ⟨hmem, hnone⟩
    obtain ⟨g, hg, hge⟩ := (exists_resolved_iff hres gid).mpr hmem
    subst hge
    exact ⟨g, List.mem_filter.mpr
      ⟨hg, (get_tv_content_isNone_iff ms g.id).mpr hnone⟩, rfl⟩

/-! ### Sync-mode field characterizations -/

lemma toUploadAdd_of_resolved_nil {catalog : List GImg} {ms : List Mapping}
    {targets : List Nat} (h : resolvedImages catalog targets = []) :
    imagesToUploadAdd catalog ms targets = [] := by
  unfold imagesToUploadAdd
  rw [h]
  rfl

lemma sync_add_mode_mappings (catalog : List GImg) (dev : Device)
    (ms : List Mapping) (targets : List Nat) :
    (sync_add_mode catalog dev ms targets).mappings =
      ms ++ createdMappings dev (imagesToUploadAdd catalog ms targets)
        (freshId ms) := by
  by_cases h1 : (resolvedImages catalog targets).isEmpty
  · simp only [sync_add_mode, h1, if_true]
    rw [toUploadAdd_of_resolved_nil (List.isEmpty_iff.mp h1)]
    simp [createdMappings]
  · by_cases h2 : (imagesToUploadAdd catalog ms targets).isEmpty
    · simp only [sync_add_mode, h1, h2, Bool.false_eq_true, if_false, if_true]
      rw [List.isEmpty_iff.mp h2]
      simp [createdMappings]
    · simp only [sync_add_mode, h1, h2, Bool.false_eq_true, if_false]
      exact (execUploads_spec dev _ _).1

lemma sync_add_mode_synced (catalog : List GImg) (dev : Device)
    (ms : List Mapping) (targets : List Nat) :
    (sync_add_mode catalog dev ms targets).synced =
      ((imagesToUploadAdd catalog ms targets).filter (uploadSucceeds dev)).map
        (fun g => g.filename) := by
  by_cases h1 : (resolvedImages catalog targets).isEmpty
  · simp only [sync_add_mode, h1, if_true]
    rw [toUploadAdd_of_resolved_nil (List.isEmpty_iff.mp h1)]
    rfl
  · by_cases h2 : (imagesToUploadAdd catalog ms targets).isEmpty
    · simp only [sync_add_mode, h1, h2, Bool.false_eq_true, if_false, if_true]
      rw [List.isEmpty_iff.mp h2]
      rfl
    · simp only [sync_add_mode, h1, h2, Bool.false_eq_true, if_false]
      exact (execUploads_spec dev _ _).2.1

lemma sync_add_mode_success_iff (catalog : List GImg) (dev : Device)
    (ms : List Mapping) (targets : List Nat) :
    (sync_add_mode catalog dev ms targets).success = true ↔
      (resolvedImages catalog targets ≠ [] ∧
        (imagesToUploadAdd catalog ms targets = [] ∨
          ∃ g ∈ imagesToUploadAdd catalog ms targets,
            uploadSucceeds dev g = true)) := by
  by_cases h1 : (resolvedImages catalog targets).isEmpty
  · simp only [sync_add_mode, h1, if_true]
    simp [List.isEmpty_iff.mp h1]
  · by_cases h2 : (imagesToUploadAdd catalog ms targets).isEmpty
    · simp only [sync_add_mode, h1, h2, Bool.false_eq_true, if_false, if_true]
      constructor
      · intro _
        exact ⟨by simpa [List.isEmpty_iff] using h1,
          Or.inl (List.isEmpty_iff.mp h2)⟩
      · intro _
        trivial
    · simp only [sync_add_mode, h1, h2, Bool.false_eq_true, if_false]
      rw [show (execUploads dev (imagesToUploadAdd catalog ms targets)
          ⟨ms, [], resolutionFailures catalog targets, freshId ms⟩).synced =
          ((imagesToUploadAdd catalog ms targets).filter (uploadSucceeds dev)).map
            (fun g => g.filename) from (execUploads_spec dev _ _).2.1]
      constructor
      · intro h
        refine ⟨by simpa [List.isEmpty_iff] using h1, Or.inr ?_⟩
        simp only [Bool.not_eq_true', List.isEmpty_eq_false] at h
        rw [ne_eq, List.map_eq_nil_iff, List.filter_eq_nil_iff] at h
        push_neg at h
        obtain ⟨g, hg, hsucc⟩ := h
        exact ⟨g, hg, by simpa using hsucc⟩
      · rintro ⟨-, h | h⟩
        · exact absurd h (by simpa [List.isEmpty_iff] using h2)
        · obtain ⟨g, hg, hsucc⟩ := h
          simp only [Bool.not_eq_true', List.isEmpty_eq_false]
          rw [ne_eq, List.map_eq_nil_iff, List.filter_eq_nil_iff]
          push_neg
          exact ⟨g, hg, by simp [hsucc]⟩

lemma sync_reset_mode_synced (catalog : List GImg) (dev : Device)
    (ms : List Mapping) (targets : List Nat) :
    (sync_reset_mode catalog dev ms targets).synced =
      ((imagesToUploadReset catalog ms targets).filter (uploadSucceeds dev)).map
        (fun g => g.filename) := by
  simp only [sync_reset_mode]
  exact (execUploads_spec dev _ _).2.1

lemma sync_reset_mode_failed (catalog : List GImg) (dev : Device)
    (ms : List Mapping) (targets : List Nat) :
    (sync_reset_mode catalog dev ms targets).failed =
      resolutionFailures catalog targets ++
        (imagesToUploadReset catalog ms targets).filterMap
          (uploadFailureRecord dev) := by
  simp only [sync_reset_mode]
  exact (execUploads_spec dev _ _).2.2

lemma sync_reset_mode_mappings (catalog : List GImg) (dev : Device)
    (ms : List Mapping) (targets : List Nat) :
    (sync_reset_mode catalog dev ms targets).mappings =
      (if (mappingsToDelete catalog ms targets).isEmpty then ms
       else if dev.deleteOk then
         ms.filter (fun m =>
           !(((mappingsToDelete catalog ms targets).map (fun d => d.id)).contains
             m.id))
       else ms) ++
        createdMappings dev (imagesToUploadReset catalog ms targets)
          (freshId ms) := by
  simp only [sync_reset_mode]
  exact (execUploads_spec dev _ _).1

lemma sync_reset_mode_success_iff (catalog : List GImg) (dev : Device)
    (ms : List Mapping) (targets : List Nat) :
    (sync_reset_mode catalog dev ms targets).success = true ↔
      ((∃ g ∈ imagesToUploadReset catalog ms targets,
          uploadSucceeds dev g = true) ∨
        mappingsToDelete catalog ms targets ≠ []) := by
  simp only [sync_reset_mode]
  rw [show (execUploads dev (imagesToUploadReset catalog ms targets)
      ⟨if (mappingsToDelete catalog ms targets).isEmpty then ms
       else if dev.deleteOk then
         ms.filter (fun m =>
           !(((mappingsToDelete catalog ms targets).map (fun d => d.id)).contains
             m.id))
       else ms, [], resolutionFailures catalog targets, freshId ms⟩).synced =
      ((imagesToUploadReset catalog ms targets).filter (uploadSucceeds dev)).map
        (fun g => g.filename) from (execUploads_spec dev _ _).2.1]
  rw [Bool.or_eq_true]
  constructor
  · rintro (h | h)
    · left
      simp only [Bool.not_eq_true', List.isEmpty_eq_false] at h
      rw [ne_eq, List.map_eq_nil_iff, List.filter_eq_nil_iff] at h
      push_neg at h
      obtain ⟨g, hg, hsucc⟩ := h
      exact ⟨g, hg, by simpa using hsucc⟩
    · right
      simpa [List.isEmpty_iff] using h
  · rintro (h | h)
    · left
      obtain ⟨g, hg, hsucc⟩ := h
      simp only [Bool.not_eq_true', List.isEmpty_eq_false]
      rw [ne_eq, List.map_eq_nil_iff, List.filter_eq_nil_iff]
      push_neg
      exact ⟨g, hg, by simp [hsucc]⟩
    · right
      simpa [List.isEmpty_iff] using h

lemma get_tv_append (l₁ l₂ : List Mapping) (gid : Nat) :
    get_tv_content_by_gallery_image_id (l₁ ++ l₂) gid =
      (get_tv_content_by_gallery_image_id l₁ gid).or
        (get_tv_content_by_gallery_image_id l₂ gid) := by
  unfold get_tv_content_by_gallery_image_id
  exact List.find?_append

lemma add_mode_retry (catalog : List GImg) (dev : Device) (ms : List Mapping)
    (targets : List Nat) :
    imagesToUploadAdd catalog
        ((sync_add_mode catalog dev ms targets).mappings) targets =
      (imagesToUploadAdd catalog ms targets).filter
        (fun g => !(uploadSucceeds dev g)) := by
  rw [sync_add_mode_mappings]
  unfold imagesToUploadAdd
  rw [List.filter_filter]
  apply List.filter_congr
  intro g hg
  rw [get_tv_append]
  cases hA : get_tv_content_by_gallery_image_id ms g.id with
  | some m => simp
  | none =>
    rw [Option.none_or]
    by_cases hsucc : uploadSucceeds dev g = true
    · have hplan : g ∈ (resolvedImages catalog targets).filter
          (fun g => (get_tv_content_by_gallery_image_id ms g.id).isNone) :=
        List.mem_filter.mpr ⟨hg, by simp [hA]⟩
      have hid : g.id ∈ (createdMappings dev
          ((resolvedImages catalog targets).filter
            (fun g => (get_tv_content_by_gallery_image_id ms g.id).isNone))
          (freshId ms)).filterMap (fun m => m.gallery_image_id) := by
        rw [createdMappings_gallery_ids]
        exact List.mem_map_of_mem _ (List.mem_filter.mpr ⟨hplan, hsucc⟩)
      obtain ⟨m', hm', hgal⟩ := List.mem_filterMap.mp hid
      cases hB : get_tv_content_by_gallery_image_id (createdMappings dev
          ((resolvedImages catalog targets).filter
            (fun g => (get_tv_content_by_gallery_image_id ms g.id).isNone))
          (freshId ms)) g.id with
      | none =>
        exfalso
        have hno := (get_tv_content_isNone_iff _ g.id).mp (by rw [hB]; rfl)
        exact hno ⟨m', hm', hgal⟩
      | some mB => simp [hsucc]
    · have hno : ¬ ∃ m ∈ (createdMappings dev
          ((resolvedImages catalog targets).filter
            (fun g => (get_tv_content_by_gallery_image_id ms g.id).isNone))
          (freshId ms)), m.gallery_image_id = some g.id := by
        rintro ⟨m', hm', hgal⟩
        have hid : g.id ∈ (createdMappings dev
            ((resolvedImages catalog targets).filter
              (fun g => (get_tv_content_by_gallery_image_id ms g.id).isNone))
            (freshId ms)).filterMap (fun m => m.gallery_image_id) :=
          List.mem_filterMap.mpr ⟨m', hm', hgal⟩
        rw [createdMappings_gallery_ids] at hid
        obtain ⟨g2, hg2, hge⟩ := List.mem_map.mp hid
        have hg22 := List.mem_filter.mp hg2
        have hg2res : g2 ∈ resolvedImages catalog targets :=
          (List.mem_filter.mp hg22.1).1
        have heq : some g2 = some g := by
          have e1 := resolve_self hg2res
          have e2 := resolve_self hg
          rw [hge, e2] at e1
          exact e1.symm
        cases heq
        exact hsucc hg22.2
      have hB : (get_tv_content_by_gallery_image_id (createdMappings dev
          ((resolvedImages catalog targets).filter
            (fun g => (get_tv_content_by_gallery_image_id ms g.id).isNone))
          (freshId ms)) g.id).isNone = true :=
        (get_tv_content_isNone_iff _ g.id).mpr hno
      rw [hB]
      simp [hsucc]

/-! ### Claims C1, C2, C7, C8, C9 -/

/-- Scenario C catalog: gallery images 2 and 7. -/
def scenCCatalog : List GImg :=
  [⟨2, "2.jpg", "gallery/2.jpg"⟩, ⟨7, "7.jpg", "gallery/7.jpg"⟩]

/-- Scenario C app-managed mapping for gallery id 2. -/
def scenCMappingFor2 : Mapping :=
  { id := 1, gallery_image_id := some 2, tv_content_id := "MY_F0002",
    sync_status := "synced" }

/-- Scenario C app-managed mapping for gallery id 7. -/
def scenCMappingFor7 : Mapping :=
  { id := 2, gallery_image_id := some 7, tv_content_id := "MY_F0007",
    sync_status := "synced" }

/-- Scenario C manual mapping. -/
def scenCManualMapping : Mapping :=
  { id := 3, gallery_image_id := none, tv_content_id := "MY_F0100",
    sync_status := "manual" }

/-- Scenario C mapping snapshot. -/
def scenCMappings : List Mapping :=
  [scenCMappingFor2, scenCMappingFor7, scenCManualMapping]

/-- Claim C1: in Reset mode, with every target id resolving in the catalog,
`ToDelete` is exactly the app-managed mappings whose gallery id is outside the
target set, manual mappings are never in `ToDelete`, `ToUpload` is exactly the
target ids with no existing mapping, and already-mapped targets are never
re-uploaded; Scenario C behaves as specified. -/
theorem C1_reset_plan_partition (catalog : List GImg) (ms : List Mapping)
    (targets : List Nat)
    (hres : ∀ t ∈ targets, (getGalleryImage catalog t).isSome) :
    (∀ m, m ∈ mappingsToDelete catalog ms targets ↔
      (m ∈ ms ∧ ∃ gid, m.gallery_image_id = some gid ∧ gid ∉ targets)) ∧
    (∀ m ∈ ms, m.gallery_image_id = none →
      m ∉ mappingsToDelete catalog ms targets) ∧
    (∀ gid, (∃ g ∈ imagesToUploadReset catalog ms targets, g.id = gid) ↔
      (gid ∈ targets ∧ ¬ ∃ m ∈ ms, m.gallery_image_id = some gid)) ∧
    (∀ gid ∈ targets, (∃ m ∈ ms, m.gallery_image_id = some gid) →
      ¬ ∃ g ∈ imagesToUploadReset catalog ms targets, g.id = gid) ∧
    (mappingsToDelete scenCCatalog scenCMappings [2] = [scenCMappingFor7] ∧
      imagesToUploadReset scenCCatalog scenCMappings [2] = []) := by
  refine ⟨mem_mappingsToDelete_iff hres, ?_, mem_toUploadReset_iff hres, ?_,
    by decide⟩
  · intro m hm hnone hmem
    obtain ⟨-, gid, hg, -⟩ := (mem_mappingsToDelete_iff hres m).mp hmem
    rw [hnone] at hg
    cases hg
  · intro gid hgid hex hup
    obtain ⟨-, hnone⟩ := (mem_toUploadReset_iff hres gid).mp hup
    exact hnone hex

/-- Witness for C1 at the Scenario C inputs. -/
theorem C1_reset_plan_partition_witness :
    (∀ t ∈ [2], (getGalleryImage scenCCatalog t).isSome) ∧
    ((∀ m, m ∈ mappingsToDelete scenCCatalog scenCMappings [2] ↔
      (m ∈ scenCMappings ∧
        ∃ gid, m.gallery_image_id = some gid ∧ gid ∉ [2])) ∧
    (∀ m ∈ scenCMappings, m.gallery_image_id = none →
      m ∉ mappingsToDelete scenCCatalog scenCMappings [2]) ∧
    (∀ gid, (∃ g ∈ imagesToUploadReset scenCCatalog scenCMappings [2],
        g.id = gid) ↔
      (gid ∈ [2] ∧ ¬ ∃ m ∈ scenCMappings, m.gallery_image_id = some gid)) ∧
    (∀ gid ∈ [2], (∃ m ∈ scenCMappings, m.gallery_image_id = some gid) →
      ¬ ∃ g ∈ imagesToUploadReset scenCCatalog scenCMappings [2], g.id = gid) ∧
    (mappingsToDelete scenCCatalog scenCMappings [2] = [scenCMappingFor7] ∧
      imagesToUploadReset scenCCatalog scenCMappings [2] = [])) :=
  ⟨by decide, C1_reset_plan_partition scenCCatalog scenCMappings [2] (by decide)⟩

/-- Claim C2: in Add mode, with every target id resolving in the catalog, the
plan is exactly the target ids with no existing mapping, and execution only
appends mappings — every pre-existing mapping survives unchanged. -/
theorem C2_add_mode_upload_only (catalog : List GImg) (dev : Device)
    (ms : List Mapping) (targets : List Nat)
    (hres : ∀ t ∈ targets, (getGalleryImage catalog t).isSome) :
    (∀ gid, (∃ g ∈ imagesToUploadAdd catalog ms targets, g.id = gid) ↔
      (gid ∈ targets ∧ ¬ ∃ m ∈ ms, m.gallery_image_id = some gid)) ∧
    (sync_add_mode catalog dev ms targets).mappings =
      ms ++ createdMappings dev (imagesToUploadAdd catalog ms targets)
        (freshId ms) ∧
    (∀ m ∈ ms, m ∈ (sync_add_mode catalog dev ms targets).mappings) :=
  ⟨mem_toUploadAdd_iff hres, sync_add_mode_mappings catalog dev ms targets,
   fun m hm => by
     rw [sync_add_mode_mappings]
     exact List.mem_append_left _ hm⟩

/-- Scenario B catalog: gallery images 5 and 6. -/
def scenBCatalog : List GImg :=
  [⟨5, "5.jpg", "gallery/5.jpg"⟩, ⟨6, "6.jpg", "gallery/6.jpg"⟩]

/-- Scenario B mapping snapshot: only gallery id 5 is mapped. -/
def scenBMappings : List Mapping :=
  [{ id := 1, gallery_image_id := some 5, tv_content_id := "MY_F0005",
     sync_status := "synced" }]

/-- Scenario B device: every upload succeeds. -/
def scenBDevice : Device :=
  { uploadResult := fun g => some ("MY_F000" ++ toString g.id),
    fileExists := fun _ => true,
    deleteOk := true }

/-- Witness for C2 at the Scenario B inputs. -/
theorem C2_add_mode_upload_only_witness :
    (∀ t ∈ [5, 6], (getGalleryImage scenBCatalog t).isSome) ∧
    ((∀ gid, (∃ g ∈ imagesToUploadAdd scenBCatalog scenBMappings [5, 6],
        g.id = gid) ↔
      (gid ∈ [5, 6] ∧
        ¬ ∃ m ∈ scenBMappings, m.gallery_image_id = some gid)) ∧
    (sync_add_mode scenBCatalog scenBDevice scenBMappings [5, 6]).mappings =
      scenBMappings ++ createdMappings scenBDevice
        (imagesToUploadAdd scenBCatalog scenBMappings [5, 6])
        (freshId scenBMappings) ∧
    (∀ m ∈ scenBMappings,
      m ∈ (sync_add_mode scenBCatalog scenBDevice scenBMappings
            [5, 6]).mappings)) :=
  ⟨by decide,
   C2_add_mode_upload_only scenBCatalog scenBDevice scenBMappings [5, 6]
     (by decide)⟩

/-- The C7 counterexample catalog/mappings: target 2 already mapped, nothing
else on the device. -/
def c7Catalog : List GImg := [⟨2, "2.jpg", "gallery/2.jpg"⟩]

/-- The single app-managed mapping of the C7 counterexample. -/
def c7Mappings : List Mapping :=
  [{ id := 1, gallery_image_id := some 2, tv_content_id := "MY_F0002",
     sync_status := "synced" }]

/-- A device session for the C7 counterexample. -/
def c7Device : Device :=
  { uploadResult := fun _ => none, fileExists := fun _ => true,
    deleteOk := false }

/-- Counterexample to claim C7: a Reset-mode invocation whose plan is empty
(nothing to upload, nothing to delete, no drift) returns overall success
`false`, while the claim requires an empty plan to yield success. -/
theorem C7_counterexample :
    mappingsToDelete c7Catalog c7Mappings [2] = [] ∧
      imagesToUploadReset c7Catalog c7Mappings [2] = [] ∧
      (sync_reset_mode c7Catalog c7Device c7Mappings [2]).success = false := by
  refine ⟨by decide, by decide, ?_⟩
  rfl

/-- Claim C7 (amended): Add-mode success is `true` iff at least one target
resolved and (the upload plan was empty, or at least one upload succeeded);
Reset-mode success is `true` iff at least one upload succeeded or the planned
delete set was nonempty — counted even if the device delete call failed. An
empty Reset-mode plan therefore yields failure, and a Reset-mode plan whose
delete call failed with no successful uploads still yields success. -/
theorem C7_overall_success (catalog : List GImg) (dev : Device)
    (ms : List Mapping) (targets : List Nat) :
    ((sync_add_mode catalog dev ms targets).success = true ↔
      (resolvedImages catalog targets ≠ [] ∧
        (imagesToUploadAdd catalog ms targets = [] ∨
          ∃ g ∈ imagesToUploadAdd catalog ms targets,
            uploadSucceeds dev g = true))) ∧
    ((sync_reset_mode catalog dev ms targets).success = true ↔
      ((∃ g ∈ imagesToUploadReset catalog ms targets,
          uploadSucceeds dev g = true) ∨
        mappingsToDelete catalog ms targets ≠ [])) :=
  ⟨sync_add_mode_success_iff catalog dev ms targets,
   sync_reset_mode_success_iff catalog dev ms targets⟩

/-- Claim C9: in Reset mode, a target id that does not resolve is recorded as
a per-item "not found" failure, and any app-managed mapping for that id lands
in the delete set: its content id is in the batch sent to the device, and
(when the device delete succeeds) its mapping is removed from the table. -/
theorem C9_unresolvable_target_deleted (catalog : List GImg) (dev : Device)
    (ms : List Mapping) (targets : List Nat) (t : Nat)
    (ht : t ∈ targets) (hnone : getGalleryImage catalog t = none) :
    (⟨"ID:" ++ toString t, "Gallery image not found in database"⟩ :
        SyncFailure) ∈ (sync_reset_mode catalog dev ms targets).failed ∧
    (∀ m ∈ ms, m.gallery_image_id = some t →
      (m ∈ mappingsToDelete catalog ms targets ∧
       m.tv_content_id ∈ (mappingsToDelete catalog ms targets).map
         (fun d => d.tv_content_id) ∧
       (dev.deleteOk = true →
         m ∉ (sync_reset_mode catalog dev ms targets).mappings))) := by
  have hnotsel : t ∉ (resolvedImages catalog targets).map (fun g => g.id) := by
    intro hsel
    obtain ⟨g, hg, hge⟩ := List.mem_map.mp hsel
    have hself := resolve_self hg
    rw [hge, hnone] at hself
    cases hself
  constructor
  · rw [sync_reset_mode_failed]
    apply List.mem_append_left
    unfold resolutionFailures
    apply List.mem_map_of_mem
    rw [List.mem_filter]
    refine ⟨ht, ?_⟩
    simp [hnone]
  · intro m hm hgal
    have hdel : m ∈ mappingsToDelete catalog ms targets := by
      unfold mappingsToDelete
      refine List.mem_filter.mpr ⟨?_, ?_⟩
      · exact List.mem_filter.mpr ⟨hm, by simp [hgal]⟩
      · rw [hgal]
        simpa using hnotsel
    refine ⟨hdel, List.mem_map_of_mem _ hdel, ?_⟩
    intro hok hmem
    rw [sync_reset_mode_mappings] at hmem
    have hne : (mappingsToDelete catalog ms targets).isEmpty = false := by
      rw [List.isEmpty_eq_false]
      exact List.ne_nil_of_mem hdel
    rw [hne] at hmem
    simp only [Bool.false_eq_true, if_false, hok, if_true] at hmem
    rcases List.mem_append.mp hmem with hin | hin
    · have hpred := (List.mem_filter.mp hin).2
      have hidmem : m.id ∈ (mappingsToDelete catalog ms targets).map
          (fun d => d.id) := List.mem_map_of_mem _ hdel
      have : m.id ∉ (mappingsToDelete catalog ms targets).map (fun d => d.id) :=
        by simpa using hpred
      exact this hidmem
    · have hge := createdMappings_ids_ge dev _ _ m hin
      have hlt := id_lt_freshId hm
      omega

/-- The C9 witness catalog: target 9 does not resolve. -/
def c9Catalog : List GImg := [⟨2, "2.jpg", "gallery/2.jpg"⟩]

/-- The C9 witness mapping for the unresolvable gallery id 9. -/
def c9Mapping : Mapping :=
  { id := 4, gallery_image_id := some 9, tv_content_id := "MY_F0009",
    sync_status := "synced" }

/-- The C9 witness mapping table. -/
def c9Mappings : List Mapping := [c9Mapping]

/-- A device whose delete call succeeds, for the C9 witness. -/
def c9Device : Device :=
  { uploadResult := fun _ => none, fileExists := fun _ => true,
    deleteOk := true }

/-- Witness for C9 at a concrete unresolvable target. -/
theorem C9_unresolvable_target_deleted_witness :
    (9 ∈ [9] ∧ getGalleryImage c9Catalog 9 = none) ∧
    ((⟨"ID:" ++ toString 9, "Gallery image not found in database"⟩ :
        SyncFailure) ∈ (sync_reset_mode c9Catalog c9Device c9Mappings
          [9]).failed ∧
    (∀ m ∈ c9Mappings, m.gallery_image_id = some 9 →
      (m ∈ mappingsToDelete c9Catalog c9Mappings [9] ∧
       m.tv_content_id ∈ (mappingsToDelete c9Catalog c9Mappings [9]).map
         (fun d => d.tv_content_id) ∧
       (c9Device.deleteOk = true →
         m ∉ (sync_reset_mode c9Catalog c9Device c9Mappings [9]).mappings)))) :=
  ⟨⟨by decide, by decide⟩,
   C9_unresolvable_target_deleted c9Catalog c9Device c9Mappings [9] 9
     (by decide) (by decide)⟩

/-- Claim C8: each upload item, on device success, creates exactly one mapping
with status `synced` and the returned content id (no failure recorded); on
upload failure it appends one `{filename, error}` record and makes no catalog
change; every plan item produces exactly one outcome (failures never abort the
loop); and re-running the same Add-mode request plans exactly the items that
did not get a mapping. -/
theorem C8_executor_item_isolation (dev : Device) :
    (∀ (st : ExecState) (g : GImg) (cid : String),
      dev.fileExists g = true → dev.uploadResult g = some cid →
      (execUploadItem dev st g).mappings =
          st.mappings ++ [newSyncedMapping st.nextId g.id cid] ∧
        (newSyncedMapping st.nextId g.id cid).sync_status = "synced" ∧
        (newSyncedMapping st.nextId g.id cid).tv_content_id = cid ∧
        (newSyncedMapping st.nextId g.id cid).gallery_image_id = some g.id ∧
        (execUploadItem dev st g).failed = st.failed) ∧
    (∀ (st : ExecState) (g : GImg),
      dev.fileExists g = true → dev.uploadResult g = none →
      (execUploadItem dev st g).failed =
          st.failed ++ [⟨g.filename, "Upload failed"⟩] ∧
        (execUploadItem dev st g).mappings = st.mappings) ∧
    (∀ (items : List GImg) (st : ExecState),
      (execUploads dev items st).synced.length +
          (execUploads dev items st).failed.length =
        st.synced.length + st.failed.length + items.length) ∧
    (∀ (catalog : List GImg) (ms : List Mapping) (targets : List Nat),
      imagesToUploadAdd catalog
          ((sync_add_mode catalog dev ms targets).mappings) targets =
        (imagesToUploadAdd catalog ms targets).filter
          (fun g => !(uploadSucceeds dev g))) := by
  refine ⟨?_, ?_, ?_, ?_⟩
  · intro st g cid hf hu
    rw [execUploadItem_success hf hu]
    exact ⟨rfl, rfl, rfl, rfl, rfl⟩
  · intro st g hf hu
    rw [execUploadItem_uploadFail hf hu]
    exact ⟨rfl, rfl⟩
  · intro items st
    obtain ⟨-, h2, h3⟩ := execUploads_spec dev items st
    rw [h2, h3]
    have := succ_plus_fail_length dev items
    simp only [List.length_append, List.length_map]
    omega
  · intro catalog ms targets
    exact add_mode_retry catalog dev ms targets

/-- A device for the C8 witness: id 6 uploads fine, id 9 fails. -/
def c8Device : Device :=
  { uploadResult := fun g => if g.id == 6 then some "MY_F0006" else none,
    fileExists := fun _ => true,
    deleteOk := true }

/-- An executor state for the C8 witness. -/
def c8St : ExecState := ⟨[], [], [], 1⟩

/-- A gallery image whose upload succeeds, for the C8 witness. -/
def c8Img : GImg := ⟨6, "6.jpg", "gallery/6.jpg"⟩

/-- A gallery image whose upload fails, for the C8 witness. -/
def c8ImgBad : GImg := ⟨9, "9.jpg", "gallery/9.jpg"⟩

/-- Witness for C8 at concrete items. -/
theorem C8_executor_item_isolation_witness :
    (c8Device.fileExists c8Img = true ∧
      c8Device.uploadResult c8Img = some "MY_F0006" ∧
      c8Device.uploadResult c8ImgBad = none) ∧
    (((execUploadItem c8Device c8St c8Img).mappings =
        c8St.mappings ++ [newSyncedMapping c8St.nextId c8Img.id "MY_F0006"] ∧
      (newSyncedMapping c8St.nextId c8Img.id "MY_F0006").sync_status =
        "synced" ∧
      (newSyncedMapping c8St.nextId c8Img.id "MY_F0006").tv_content_id =
        "MY_F0006" ∧
      (newSyncedMapping c8St.nextId c8Img.id "MY_F0006").gallery_image_id =
        some c8Img.id ∧
      (execUploadItem c8Device c8St c8Img).failed = c8St.failed) ∧
    ((execUploadItem c8Device c8St c8ImgBad).failed =
        c8St.failed ++ [⟨c8ImgBad.filename, "Upload failed"⟩] ∧
      (execUploadItem c8Device c8St c8ImgBad).mappings = c8St.mappings) ∧
    ((execUploads c8Device [c8Img, c8ImgBad] c8St).synced.length +
        (execUploads c8Device [c8Img, c8ImgBad] c8St).failed.length =
      c8St.synced.length + c8St.failed.length + 2)) := by
  have h := C8_executor_item_isolation c8Device
  exact ⟨⟨by decide, by decide, by decide⟩,
    h.1 c8St c8Img "MY_F0006" (by decide) (by decide),
    h.2.1 c8St c8ImgBad (by decide) (by decide),
    h.2.2.1 [c8Img, c8ImgBad] c8St⟩

/-! ## Reconciler (`tv_refresh.py`) -/

/-- A device content-listing item with its display metadata. -/
structure TVItem where
  content_id : String
  category_id : Option String := none
  width : Option Nat := none
  height : Option Nat := none
  matte_id : Option String := none
  portrait_matte_id : Option String := none
  image_date : Option String := none
  content_type : Option String := none
deriving Repr, DecidableEq

/-- Whether the device listing reports this content id. -/
def onTV (listing : List TVItem) (cid : String) : Bool :=
  listing.any (fun it => it.content_id == cid)

/-- The listing metadata for a content id (`tv_content_metadata.get`). -/
def lookupMeta (listing : List TVItem) (cid : String) : Option TVItem :=
  listing.find? (fun it => it.content_id == cid)

/-- The `manual` mapping created for a device item with no local mapping, with
the metadata copied from the listing. -/
def manualMappingFromItem (mid : Nat) (it : TVItem) : Mapping :=
  { id := mid, gallery_image_id := none, tv_content_id := it.content_id,
    sync_status := "manual", category_id := it.category_id, width := it.width,
    height := it.height, matte_id := it.matte_id,
    portrait_matte_id := it.portrait_matte_id, image_date := it.image_date,
    content_type := it.content_type }

/-- Overwrite a mapping's denormalized device metadata from a listing item,
leaving every other field (in particular `sync_status`) unchanged. -/
def overwriteMeta (it : TVItem) (m : Mapping) : Mapping :=
  { m with
    category_id := it.category_id, width := it.width,
    height := it.height, matte_id := it.matte_id,
    portrait_matte_id := it.portrait_matte_id, image_date := it.image_date,
    content_type := it.content_type }

/-- The metadata update applied to a kept mapping during refresh. -/
def applyListingMeta (listing : List TVItem) (m : Mapping) : Mapping :=
  match lookupMeta listing m.tv_content_id with
  | some it => overwriteMeta it m
  | none => m

/-- The `{removed, added, updated, total_on_tv, synced_via_app,
manual_uploads}` summary returned by the reconciler. -/
structure RefreshResult where
  removed : Nat
  added : Nat
  updated : Nat
  total_on_tv : Nat
  synced_via_app : Nat
  manual_uploads : Nat
deriving Repr, DecidableEq

/-- `refresh_tv_state`: delete mappings absent from the listing, create
`manual` mappings (ids `fresh`, `fresh+1`, ...) for listing items with no
local mapping, overwrite the metadata of mappings present in both, and count
the post-reconcile state. -/
def refresh_tv_state (listing : List TVItem) (ms : List Mapping)
    (fresh : Nat) : RefreshResult × List Mapping :=
  let kept := ms.filter (fun m => onTV listing m.tv_content_id)
  let removed := (ms.filter (fun m => !(onTV listing m.tv_content_id))).length
  let additions := listing.filter
    (fun it => !(ms.any (fun m => m.tv_content_id == it.content_id)))
  let newMaps := additions.enum.map
    (fun p => manualMappingFromItem (fresh + p.1) p.2)
  let updatedMs := kept.map (applyListingMeta listing)
  let updated := (listing.filter
    (fun it => ms.any (fun m => m.tv_content_id == it.content_id))).length
  let final := updatedMs ++ newMaps
  (⟨removed, newMaps.length, updated, listing.length,
    (final.filter (fun m => m.gallery_image_id.isSome)).length,
    (final.filter (fun m => m.gallery_image_id.isNone)).length⟩,
   final)

lemma applyListingMeta_tv (listing : List TVItem) (m : Mapping) :
    (applyListingMeta listing m).tv_content_id = m.tv_content_id := by
  unfold applyListingMeta
  cases lookupMeta listing m.tv_content_id <;> rfl

lemma applyListingMeta_gallery (listing : List TVItem) (m : Mapping) :
    (applyListingMeta listing m).gallery_image_id = m.gallery_image_id := by
  unfold applyListingMeta
  cases lookupMeta listing m.tv_content_id <;> rfl

lemma onTV_eq_lookup_isSome (listing : List TVItem) (cid : String) :
    onTV listing cid = (lookupMeta listing cid).isSome := by
  unfold onTV lookupMeta
  rw [Bool.eq_iff_iff]
  simp [List.find?_isSome, List.any_eq_true]

lemma mem_snd_of_mem_enum {α : Type} {l : List α} {p : Nat × α}
    (hp : p ∈ l.enum) : p.2 ∈ l := by
  have := List.mem_map_of_mem Prod.snd hp
  rwa [List.enum_map_snd] at this

/-- Scenario A listing: content ids A, B, C. -/
def scenAListing : List TVItem :=
  [{ content_id := "A" }, { content_id := "B" }, { content_id := "C" }]

/-- Scenario A local mappings: A and B app-managed for gallery ids 1 and 2. -/
def scenAMappings : List Mapping :=
  [{ id := 1, gallery_image_id := some 1, tv_content_id := "A",
     sync_status := "synced" },
   { id := 2, gallery_image_id := some 2, tv_content_id := "B",
     sync_status := "synced" }]

/-- Claim C3: the Refresh diff against the device listing — locals absent from
the listing are removed (the post state only holds listed content ids),
unmapped listing entries create `manual` mappings with the listing metadata,
entries present in both get their metadata overwritten with sync status
unchanged, and the synced/manual counts are taken over the post-reconcile
mapping set; Scenario A yields `{0, 1, 2, 3, 2, 1}`. -/
theorem C3_refresh_reconcile (listing : List TVItem) (ms : List Mapping)
    (fresh : Nat)
    (hL : (listing.map (fun it => it.content_id)).Nodup)
    (hM : (ms.map (fun m => m.tv_content_id)).Nodup) :
    (refresh_tv_state listing ms fresh).1.removed =
        (ms.filter (fun m => !(onTV listing m.tv_content_id))).length ∧
    (∀ m ∈ (refresh_tv_state listing ms fresh).2,
        onTV listing m.tv_content_id = true) ∧
    (refresh_tv_state listing ms fresh).1.added =
        (listing.filter (fun it =>
          !(ms.any (fun m => m.tv_content_id == it.content_id)))).length ∧
    (∀ it ∈ listing, ¬ (∃ m ∈ ms, m.tv_content_id = it.content_id) →
      ∃ m' ∈ (refresh_tv_state listing ms fresh).2,
        m'.tv_content_id = it.content_id ∧ m'.sync_status = "manual" ∧
        m'.gallery_image_id = none ∧ m'.category_id = it.category_id ∧
        m'.width = it.width ∧ m'.height = it.height ∧
        m'.matte_id = it.matte_id ∧
        m'.portrait_matte_id = it.portrait_matte_id ∧
        m'.image_date = it.image_date ∧
        m'.content_type = it.content_type) ∧
    (refresh_tv_state listing ms fresh).1.updated =
        (listing.filter (fun it =>
          ms.any (fun m => m.tv_content_id == it.content_id))).length ∧
    (∀ m ∈ ms, onTV listing m.tv_content_id = true →
      ∃ it, lookupMeta listing m.tv_content_id = some it ∧
        overwriteMeta it m ∈ (refresh_tv_state listing ms fresh).2 ∧
        (overwriteMeta it m).sync_status = m.sync_status) ∧
    (refresh_tv_state listing ms fresh).1.total_on_tv = listing.length ∧
    (refresh_tv_state listing ms fresh).1.synced_via_app =
        (((ms.filter (fun m => onTV listing m.tv_content_id)).filter
          (fun m => m.gallery_image_id.isSome))).length ∧
    (refresh_tv_state listing ms fresh).1.manual_uploads =
        (((ms.filter (fun m => onTV listing m.tv_content_id)).filter
          (fun m => m.gallery_image_id.isNone))).length +
          (refresh_tv_state listing ms fresh).1.added ∧
    (refresh_tv_state scenAListing scenAMappings 10).1 = ⟨0, 1, 2, 3, 2, 1⟩ := by
  refine ⟨rfl, ?_, ?_, ?_, rfl, ?_, rfl, ?_, ?_, by decide⟩
  · -- every post-reconcile mapping is on the device
    intro m hm
    simp only [refresh_tv_state] at hm
    rcases List.mem_append.mp hm with hin | hin
    · obtain ⟨m₀, hm₀, rfl⟩ := List.mem_map.mp hin
      rw [applyListingMeta_tv]
      exact (List.mem_filter.mp hm₀).2
    · obtain ⟨p, hp, rfl⟩ := List.mem_map.mp hin
      have hmem : p.2 ∈ listing.filter (fun it =>
          !(ms.any (fun m => m.tv_content_id == it.content_id))) :=
        mem_snd_of_mem_enum hp
      have hlist : p.2 ∈ listing := (List.mem_filter.mp hmem).1
      unfold onTV manualMappingFromItem
      simp only [List.any_eq_true]
      exact ⟨p.2, hlist, by simp⟩
  · -- added equals the number of unmapped listing entries
    simp only [refresh_tv_state]
    rw [List.length_map, List.enum_length]
  · -- creation of manual mappings
    intro it hit hnone
    have hadd : it ∈ listing.filter (fun it =>
        !(ms.any (fun m => m.tv_content_id == it.content_id))) := by
      refine List.mem_filter.mpr ⟨hit, ?_⟩
      simp only [Bool.not_eq_true', List.any_eq_false]
      intro m hm
      have hcne : ¬ m.tv_content_id = it.content_id := fun hc => hnone ⟨m, hm, hc⟩
      simpa using hcne
    have hmem : it ∈ (listing.filter (fun it =>
        !(ms.any (fun m => m.tv_content_id == it.content_id)))).enum.map
          Prod.snd := by
      rw [List.enum_map_snd]
      exact hadd
    obtain ⟨⟨i, it'⟩, hp, hsnd⟩ := List.mem_map.mp hmem
    have hsnd2 : it = it' := hsnd.symm
    subst hsnd2
    refine ⟨manualMappingFromItem (fresh + i) it, ?_, rfl, rfl, rfl, rfl, rfl,
      rfl, rfl, rfl, rfl, rfl⟩
    simp only [refresh_tv_state]
    apply List.mem_append_right
    exact List.mem_map_of_mem (fun p => manualMappingFromItem (fresh + p.1) p.2) hp
  · -- metadata overwrite for mappings present on both sides
    intro m hm hon
    have hsome : (lookupMeta listing m.tv_content_id).isSome = true := by
      rw [← onTV_eq_lookup_isSome]
      exact hon
    obtain ⟨it, hit⟩ := Option.isSome_iff_exists.mp hsome
    refine ⟨it, hit, ?_, rfl⟩
    simp only [refresh_tv_state]
    apply List.mem_append_left
    have hkept : m ∈ ms.filter (fun m => onTV listing m.tv_content_id) :=
      List.mem_filter.mpr ⟨hm, hon⟩
    have : applyListingMeta listing m = overwriteMeta it m := by
      unfold applyListingMeta
      rw [hit]
    rw [← this]
    exact List.mem_map_of_mem _ hkept
  · -- synced_via_app counted over the post state
    simp only [refresh_tv_state]
    rw [List.filter_append, List.length_append]
    have hnew : ((listing.filter (fun it =>
        !(ms.any (fun m => m.tv_content_id == it.content_id)))).enum.map
          (fun p => manualMappingFromItem (fresh + p.1) p.2)).filter
        (fun m => m.gallery_image_id.isSome) = [] := by
      rw [List.filter_eq_nil_iff]
      intro m hm
      obtain ⟨p, hp, rfl⟩ := List.mem_map.mp hm
      simp [manualMappingFromItem]
    rw [hnew, List.filter_map]
    simp only [List.length_nil, add_zero, List.length_map]
    congr 1
    apply List.filter_congr
    intro m _
    simp only [Function.comp_apply, applyListingMeta_gallery]
  · -- manual_uploads counted over the post state
    simp only [refresh_tv_state]
    rw [List.filter_append, List.length_append]
    have hnew : ((listing.filter (fun it =>
        !(ms.any (fun m => m.tv_content_id == it.content_id)))).enum.map
          (fun p => manualMappingFromItem (fresh + p.1) p.2)).filter
        (fun m => m.gallery_image_id.isNone) =
        (listing.filter (fun it =>
          !(ms.any (fun m => m.tv_content_id == it.content_id)))).enum.map
            (fun p => manualMappingFromItem (fresh + p.1) p.2) := by
      rw [List.filter_eq_self]
      intro m hm
      obtain ⟨p, hp, rfl⟩ := List.mem_map.mp hm
      simp [manualMappingFromItem]
    rw [hnew, List.filter_map]
    simp only [List.length_map, List.enum_length]
    have heq : List.filter
        ((fun m => m.gallery_image_id.isNone) ∘ applyListingMeta listing)
        (List.filter (fun m => onTV listing m.tv_content_id) ms) =
        List.filter (fun m => m.gallery_image_id.isNone)
          (List.filter (fun m => onTV listing m.tv_content_id) ms) := by
      apply List.filter_congr
      intro m _
      simp only [Function.comp_apply, applyListingMeta_gallery]
    rw [heq]

/-- Witness for C3 at the Scenario A inputs. -/
theorem C3_refresh_reconcile_witness :
    ((scenAListing.map (fun it => it.content_id)).Nodup ∧
      (scenAMappings.map (fun m => m.tv_content_id)).Nodup) ∧
    ((refresh_tv_state scenAListing scenAMappings 10).1.removed =
        (scenAMappings.filter
          (fun m => !(onTV scenAListing m.tv_content_id))).length ∧
      (refresh_tv_state scenAListing scenAMappings 10).1 = ⟨0, 1, 2, 3, 2, 1⟩) := by
  have h := C3_refresh_reconcile scenAListing scenAMappings 10
    (by decide) (by decide)
  exact ⟨⟨by decide, by decide⟩, h.1, h.2.2.2.2.2.2.2.2.2⟩

/-! ## Streaming sync (`/sync-stream`) -/

/-- A server-sent event of the streaming sync endpoint. -/
inductive StreamEvent where
  | progress (stage : String) (current total : Nat) (filename : String)
  | complete (success : Bool) (syncedCount failedCount : Nat)
deriving Repr, DecidableEq

/-- Whether an event is the terminal completion event. -/
def StreamEvent.isTerminal : StreamEvent → Bool
  | .complete .. => true
  | _ => false

/-- Modelled from the spec: `sync_add_mode_stream` and `sync_reset_mode_stream`
are imported by `main.py` but their implementation is not among the sources.
Per the spec, the streaming variant emits one progress event
(`{stage, current, total, filename}`) per plan item in processing order. This
generator emits the progress events for the remaining items, `idx` items
having been processed already. -/
def streamEventsFrom (stage : String) (total : Nat) (items : List GImg)
    (idx : Nat) : List StreamEvent :=
  match items with
  | [] => []
  | g :: rest =>
      .progress stage (idx + 1) total g.filename ::
        streamEventsFrom stage total rest (idx + 1)

/-- Modelled from the spec: the full event sequence of one streaming sync
invocation — one progress event per plan item, in order, then a single
terminal completion event. -/
def sync_stream_events (stage : String) (items : List GImg) (success : Bool)
    (syncedCount failedCount : Nat) : List StreamEvent :=
  streamEventsFrom stage items.length items 0 ++
    [.complete success syncedCount failedCount]

lemma streamEventsFrom_length (stage : String) (total : Nat) :
    ∀ (items : List GImg) (idx : Nat),
      (streamEventsFrom stage total items idx).length = items.length := by
  intro items
  induction items with
  | nil => intro idx; rfl
  | cons g rest ih =>
    intro idx
    simp [streamEventsFrom, ih]

lemma streamEventsFrom_getElem (stage : String) (total : Nat) :
    ∀ (items : List GImg) (idx i : Nat) (g : GImg), items[i]? = some g →
      (streamEventsFrom stage total items idx)[i]? =
        some (.progress stage (idx + i + 1) total g.filename) := by
  intro items
  induction items with
  | nil =>
    intro idx i g h
    simp at h
  | cons g0 rest ih =>
    intro idx i g h
    cases i with
    | zero =>
      simp only [List.getElem?_cons_zero, Option.some.injEq] at h
      subst h
      simp [streamEventsFrom]
    | succ n =>
      simp only [List.getElem?_cons_succ] at h
      have hrec := ih (idx + 1) n g h
      have harith : idx + 1 + n + 1 = idx + (n + 1) + 1 := by omega
      rw [harith] at hrec
      simpa [streamEventsFrom] using hrec

lemma streamEventsFrom_no_terminal (stage : String) (total : Nat) :
    ∀ (items : List GImg) (idx : Nat) (e : StreamEvent),
      e ∈ streamEventsFrom stage total items idx → e.isTerminal = false := by
  intro items
  induction items with
  | nil =>
    intro idx e he
    simp [streamEventsFrom] at he
  | cons g rest ih =>
    intro idx e he
    rcases List.mem_cons.mp he with rfl | he2
    · rfl
    · exact ih (idx + 1) e he2

/-- Claim C10 (modelled from the spec): the streaming sync invocation emits
exactly one progress event per plan item, in processing order (the i-th event
reports the i-th item), followed by exactly one terminal completion event in
final position — no event out of order or after the terminal one. -/
theorem C10_stream_event_order (stage : String) (items : List GImg)
    (success : Bool) (sc fc : Nat) :
    (sync_stream_events stage items success sc fc).length = items.length + 1 ∧
    (∀ (i : Nat) (g : GImg), items[i]? = some g →
      (sync_stream_events stage items success sc fc)[i]? =
        some (.progress stage (i + 1) items.length g.filename)) ∧
    (sync_stream_events stage items success sc fc)[items.length]? =
      some (.complete success sc fc) ∧
    (sync_stream_events stage items success sc fc).filter
      StreamEvent.isTerminal = [.complete success sc fc] := by
  refine ⟨?_, ?_, ?_, ?_⟩
  · unfold sync_stream_events
    rw [List.length_append, streamEventsFrom_length]
    rfl
  · intro i g h
    unfold sync_stream_events
    have hi : i < items.length := by
      by_contra hge
      rw [List.getElem?_eq_none (by omega)] at h
      cases h
    rw [List.getElem?_append,
      if_pos (show i < (streamEventsFrom stage items.length items 0).length by
        rw [streamEventsFrom_length]; omega)]
    have := streamEventsFrom_getElem stage items.length items 0 i g h
    simpa using this
  · unfold sync_stream_events
    rw [List.getElem?_append,
      if_neg (show ¬ items.length <
          (streamEventsFrom stage items.length items 0).length by
        rw [streamEventsFrom_length]; omega)]
    rw [streamEventsFrom_length]
    simp
  · unfold sync_stream_events
    rw [List.filter_append]
    have h1 : (streamEventsFrom stage items.length items 0).filter
        StreamEvent.isTerminal = [] := by
      rw [List.filter_eq_nil_iff]
      intro e he
      rw [streamEventsFrom_no_terminal stage items.length items 0 e he]
      simp
    rw [h1]
    rfl

/-- A plan item for the C10 witness. -/
def c10Img : GImg := ⟨6, "6.jpg", "gallery/6.jpg"⟩

/-- Witness for C10 at a one-item plan. -/
theorem C10_stream_event_order_witness :
    ([c10Img][0]? = some c10Img) ∧
    ((sync_stream_events "upload" [c10Img] true 1 0).length = 1 + 1 ∧
     (sync_stream_events "upload" [c10Img] true 1 0)[0]? =
       some (.progress "upload" 1 1 c10Img.filename) ∧
     (sync_stream_events "upload" [c10Img] true 1 0)[1]? =
       some (.complete true 1 0) ∧
     (sync_stream_events "upload" [c10Img] true 1 0).filter
       StreamEvent.isTerminal = [.complete true 1 0]) := by
  have h := C10_stream_event_order "upload" [c10Img] true 1 0
  exact ⟨rfl, h.1, h.2.1 0 c10Img rfl, h.2.2.1, h.2.2.2⟩

end FrameTV
